import Mathlib

/-!
Verification development for the `icann-cli` repository (`icann.py`).

The script mirrors three families of ICANN documents (SSAC, RSSAC, OCTO)
into local directories and opens cached documents by number.  We give a
shallow embedding of the script's logic:

* the filesystem of one family directory is an explicit list of entries
  (regular files and symbolic links, each with a modification time);
* the external `wget` fetch is an oracle `wok : String → Bool` saying for
  each URL whether the fetch produces the file (the code's own abstraction:
  `wget_file` returns `os.path.exists(...)` after running wget);
* the content of a fetched HTML page is abstracted by an oracle
  `pageOf : String → Html` giving the parsed pieces `clean_html` looks at;
* `datetime.date.today().strftime(...)` is a string parameter `today`;
* wall-clock time stamping of filesystem writes is a parameter `now`.

Record extraction from the listing pages (BeautifulSoup + JSON navigation)
is external parsing; the mirror loops are modelled as functions of the
extracted record lists, which is where all the claims live.
-/

/-! ## String helpers (Python semantics, kernel-computable) -/

/-- Lexicographic strict comparison of character lists by code point,
exactly Python's `<` on strings. -/
def lexLt : List Char → List Char → Bool
  | [], [] => false
  | [], _ :: _ => true
  | _ :: _, [] => false
  | a :: as, b :: bs =>
    if a.toNat < b.toNat then true
    else if b.toNat < a.toNat then false
    else lexLt as bs

/-- Python string `<`. -/
def strLt (a b : String) : Bool := lexLt a.data b.data

/-- Python string `<=` (total order: `a <= b` iff `¬ b < a`). -/
def strLe (a b : String) : Bool := !(strLt b a)

/-- Python `str.startswith`. -/
def strStarts (s p : String) : Bool := p.data.isPrefixOf s.data

/-- Python `str.endswith`. -/
def strEnds (s p : String) : Bool := p.data.isSuffixOf s.data

/-- Python `s[n:]` on strings (character based). -/
def strDrop (s : String) (n : Nat) : String := String.mk (s.data.drop n)

/-- Python `os.path.basename`: everything after the last `/`. -/
def basename (s : String) : String :=
  String.mk (s.data.foldl (fun acc c => if c = '/' then [] else acc ++ [c]) [])

/-! ## Descending insertion sort by a string key

`sorted(doc_dict.keys(), reverse=True)` sorts the (distinct) document ids
in descending Python string order and the loops then index the dict; for
an association list with those keys this is iteration in descending key
order, which `sortDescBy` computes. -/

/-- Insert `r` into a descending-sorted list. -/
def insertDescBy (key : α → String) (r : α) : List α → List α
  | [] => [r]
  | x :: xs => if strLe (key x) (key r) then r :: x :: xs else x :: insertDescBy key r xs

/-- Sort a list into descending order of `key` (Python string order). -/
def sortDescBy (key : α → String) : List α → List α
  | [] => []
  | x :: xs => insertDescBy key x (sortDescBy key xs)

/-- Python `dict.update({k : v})` on an association list: overwrite the
entry with the same key if present, otherwise append. -/
def dictInsertBy (key : α → String) (dict : List α) (r : α) : List α :=
  if dict.any (fun x => key x == key r) then
    dict.map (fun x => if key x == key r then r else x)
  else dict ++ [r]

/-- Build the `doc_dict` from the extracted records in extraction order. -/
def buildDictBy (key : α → String) (rs : List α) : List α :=
  rs.foldl (dictInsertBy key) []

/-! ## Filesystem model

One family directory: a list of named entries.  `wget` only runs when the
target name is absent, `os.symlink` only when the link name is absent, and
the index file is opened with mode `"w"` (overwrite). -/

/-- A directory entry: a regular file or a symbolic link to a path. -/
inductive FKind where
  | file : FKind
  | link : String → FKind
  deriving DecidableEq

structure FEntry where
  name : String
  kind : FKind
  mtime : Nat
  deriving DecidableEq

abbrev FS := List FEntry

/-- Python `os.path.exists`. -/
def fsExists (fs : FS) (n : String) : Bool := fs.any (fun e => e.name == n)

/-- Create or overwrite a regular file with modification time `now`. -/
def fsAddFile (fs : FS) (n : String) (now : Nat) : FS :=
  if fsExists fs n then
    fs.map (fun e => if e.name == n then ⟨n, FKind.file, now⟩ else e)
  else fs ++ [⟨n, FKind.file, now⟩]

/-- Python `os.symlink target link` (only called when `link` is absent). -/
def fsAddLink (fs : FS) (n target : String) (now : Nat) : FS :=
  fs ++ [⟨n, FKind.link target, now⟩]

/-- Modification time of the entry named `n`, if present. -/
def fsMtime (fs : FS) (n : String) : Option Nat :=
  (fs.find? (fun e => e.name == n)).map (fun e => e.mtime)

/-- The symbolic-link entries of the directory. -/
def fsLinks (fs : FS) : List FEntry :=
  fs.filter (fun e => match e.kind with | FKind.file => false | FKind.link _ => true)

/-! ## `clean_html` (icann.py lines 50-89)

The parsed page is abstracted to the three pieces `clean_html` reads.
`titleText` is the first content node of the `<title>` element; it is
`none` when the element is missing or empty, in which case
`title.contents[0]` raises an uncaught exception (`AttributeError` /
`IndexError`), modelled as result `none`. -/

structure Html where
  titleText : Option String
  dateText : Option String
  embedded : Option String
  deriving DecidableEq

/-- Remove every occurrence of the 8-character pattern `" - ICANN"`
(Python `str.replace(" - ICANN", "")`). -/
def stripICANN : List Char → List Char
  | [] => []
  | c :: cs =>
    if h : (" - ICANN".data).isPrefixOf (c :: cs) then
      stripICANN ((c :: cs).drop 8)
    else
      c :: stripICANN cs
  termination_by l => l.length
  decreasing_by
    · have hp : (" - ICANN".data) <+: (c :: cs) := by
        exact (List.isPrefixOf_iff_prefix).1 h
      have hlen : (" - ICANN".data).length ≤ (c :: cs).length := hp.length_le
      simp only [List.length_drop]
      simp at hlen ⊢
      omega
    · simp

structure CleanOut where
  outTitle : String
  outDate : Option String
  deriving DecidableEq

/-- Result of `clean_html` on a parsed page: `none` when the rewrite
raises (no usable `<title>`), otherwise the title (with the `" - ICANN"`
suffix stripped) and the optional date element that the rewritten file
carries. -/
def clean_html (h : Html) : Option CleanOut :=
  match h.titleText with
  | none => none
  | some t =>
    let t2 := if strEnds t " - ICANN" then String.mk (stripICANN t.data) else t
    some ⟨t2, h.dateText⟩

/-! ## Timestamp effect of `clean_html` (lines 54-55, 89)

POSIX semantics of the operations involved:
* rewriting the file's content sets both `mtime` and `ctime` to the
  current time;
* `os.utime(path, (a, m))` sets the access time to `a` and the
  modification time to `m`; the inode change time `ctime` is itself
  updated to the current time by the call and cannot be assigned. -/

structure FileTimes where
  atime : Nat
  mtime : Nat
  ctime : Nat
  deriving DecidableEq

/-- Content rewrite (`open(pathname, mode="w")` ... `fout.close()`). -/
def fileRewrite (t : FileTimes) (now : Nat) : FileTimes :=
  ⟨t.atime, now, now⟩

/-- `os.utime(pathname, (a, m))`. -/
def osUtime (_t : FileTimes) (a m now : Nat) : FileTimes :=
  ⟨a, m, now⟩

/-- Timestamp effect of `clean_html`: read `ctime` and `mtime`, rewrite
the content, then call `os.utime(pathname, (ctime, mtime))`. -/
def clean_html_times (t : FileTimes) (now : Nat) : FileTimes :=
  let c := t.ctime
  let m := t.mtime
  let t1 := fileRewrite t now
  osUtime t1 c m now

/-! ## Records and the fetch loop -/

/-- An SSAC record from the embedded JSON database: `docname` is the
report number with spaces removed, `url` the resolved document URL. -/
structure SRec where
  docname : String
  doctitle : String
  url : String
  deriving DecidableEq

/-- An RSSAC record (also carries the publication date). -/
structure RRec where
  docname : String
  doctitle : String
  url : String
  docdate : String
  deriving DecidableEq

/-- An OCTO table row: `href` is the anchor's relative link. -/
structure ORec where
  docname : String
  doctitle : String
  docdate : String
  href : String
  deriving DecidableEq

inductive Outcome where
  | skipped : Outcome
  | fetchFailed : Outcome
  | fetched : Outcome
  deriving DecidableEq

/-- Effect of processing one record: resulting directory, what happened,
the fetch requests issued, the diagnostics written to stderr, whether a
new file was stored (`WriteIndexFile = True`), and whether an uncaught
exception aborted the run. -/
structure StepRes where
  fs : FS
  outcome : Outcome
  requests : List String
  errors : List String
  fetched : Bool
  aborted : Bool
  deriving DecidableEq

/-- Accumulated effect of the record loop. -/
structure RunRes where
  fs : FS
  outcomes : List Outcome
  requests : List String
  errors : List String
  newFetch : Bool
  aborted : Bool
  deriving DecidableEq

/-- The record loop: process records in order; an uncaught exception in a
step stops the loop (later records are never reached). -/
def runRecs (step : FS → α → StepRes) : FS → List α → RunRes
  | fs, [] => ⟨fs, [], [], [], false, false⟩
  | fs, r :: rest =>
    match step fs r with
    | ⟨fs1, o, reqs, errs, f, true⟩ => ⟨fs1, [o], reqs, errs, f, true⟩
    | ⟨fs1, o, reqs, errs, f, false⟩ =>
      let rr := runRecs step fs1 rest
      ⟨rr.fs, o :: rr.outcomes, reqs ++ rr.requests, errs ++ rr.errors,
        f || rr.newFetch, rr.aborted⟩

/-- `wget_file` (lines 92-99): run wget and report whether the file now
exists; `wok` is the oracle for whether the fetch produces the file. -/
def wget_file (wok : String → Bool) (url : String) (fs : FS) (filename : String)
    (now : Nat) : Option FS :=
  if wok url then some (fsAddFile fs filename now) else none

/-- Derived local filename of an SSAC record (lines 151-153): the URL
basename, with `.htm` appended when it ends in `-en`. -/
def ssacFilenameOf (url : String) : String :=
  let filename := basename url
  if strEnds filename "-en" then filename ++ ".htm" else filename

/-- Alias name for an SSAC file (lines 164-168): `"sac-" + docname[3:]`,
then `-en.pdf` appended for `.pdf` files and `-en.htm` for `.htm` files. -/
def ssacLinkName (docname filename : String) : String :=
  let lf0 := "sac-" ++ strDrop docname 3
  let lf1 := if strEnds filename ".pdf" then lf0 ++ "-en.pdf" else lf0
  if strEnds filename ".htm" then lf1 ++ "-en.htm" else lf1

/-- One iteration of the SSAC fetch loop (lines 148-172). -/
def ssacStep (wok : String → Bool) (pageOf : String → Html) (now : Nat)
    (fs : FS) (r : SRec) : StepRes :=
  let filename := ssacFilenameOf r.url
  if fsExists fs filename then
    ⟨fs, Outcome.skipped, [], [], false, false⟩
  else
    match wget_file wok r.url fs filename now with
    | none =>
      ⟨fs, Outcome.fetchFailed, [r.url],
        ["Unable to fetch " ++ r.url ++ ".\n"], false, false⟩
    | some fs1 =>
      let fs2 :=
        if strStarts filename "sac-" then fs1
        else
          let lf := ssacLinkName r.docname filename
          if fsExists fs1 lf then fs1 else fsAddLink fs1 lf filename now
      if strEnds filename ".htm" then
        match clean_html (pageOf r.url) with
        | none => ⟨fs1, Outcome.fetched, [r.url], [], true, true⟩
        | some _ => ⟨fs2, Outcome.fetched, [r.url], [], true, false⟩
      else ⟨fs2, Outcome.fetched, [r.url], [], true, false⟩

/-- Alias name for an RSSAC file (line 238): always `-en.pdf`. -/
def rssacLinkName (docname : String) : String :=
  "rssac-" ++ strDrop docname 5 ++ "-en.pdf"

/-- One iteration of the RSSAC fetch loop (lines 226-242). -/
def rssacStep (wok : String → Bool) (now : Nat) (fs : FS) (r : RRec) : StepRes :=
  let filename := basename r.url
  if fsExists fs filename then
    ⟨fs, Outcome.skipped, [], [], false, false⟩
  else
    match wget_file wok r.url fs filename now with
    | none =>
      ⟨fs, Outcome.fetchFailed, [r.url],
        ["Unable to fetch " ++ r.url ++ ".\n"], false, false⟩
    | some fs1 =>
      let fs2 :=
        if strStarts filename "rssac-" then fs1
        else
          let lf := rssacLinkName r.docname
          if fsExists fs1 lf then fs1 else fsAddLink fs1 lf filename now
      ⟨fs2, Outcome.fetched, [r.url], [], true, false⟩

/-- Absolute URL of an OCTO row (line 284). -/
def octoUrlOf (href : String) : String := "https://www.icann.org" ++ href

/-- One iteration of the OCTO table loop (lines 296-301): fetch only, no
sanitizing and no alias link. -/
def octoStep (wok : String → Bool) (now : Nat) (fs : FS) (r : ORec) : StepRes :=
  let filename := basename r.href
  if fsExists fs filename then
    ⟨fs, Outcome.skipped, [], [], false, false⟩
  else
    match wget_file wok (octoUrlOf r.href) fs filename now with
    | none =>
      ⟨fs, Outcome.fetchFailed, [octoUrlOf r.href],
        ["Unable to fetch " ++ octoUrlOf r.href ++ ".\n"], false, false⟩
    | some fs1 => ⟨fs1, Outcome.fetched, [octoUrlOf r.href], [], true, false⟩

/-! ## Per-family mirror functions -/

/-- The written index, abstracted to its header line and its entries in
written order (each entry is rendered by `textwrap.wrap` and followed by
the URL line and a blank line). -/
structure IndexData (α : Type) where
  header : String
  entries : List α
  deriving DecidableEq

/-- Result of one family's mirror routine. -/
structure FamRes (α : Type) where
  run : RunRes
  indexWritten : Bool
  index : Option (IndexData α)
  fs : FS
  deriving DecidableEq

/-- Header line of the SSAC index (line 177). -/
def ssacHeader (today : String) : String :=
  "ICANN SSAC document index as of " ++ today

/-- Header line of the RSSAC index (line 247). -/
def rssacHeader (today : String) : String :=
  "ICANN RSSAC document index as of " ++ today

/-- Header line of the OCTO index (line 267). -/
def octoHeader (today : String) : String :=
  "ICANN OCTO document index as of " ++ today

/-- `mirror_ssac_documents` (lines 102-187), from the extracted records:
build `doc_dict`, loop in descending key order fetching new documents,
and rewrite `sac-index.txt` (same descending order) iff a new file was
fetched; an uncaught `clean_html` exception aborts before the index
write. -/
def mirror_ssac_documents (wok : String → Bool) (pageOf : String → Html)
    (today : String) (now : Nat) (fs : FS) (extracted : List SRec) : FamRes SRec :=
  let docs := sortDescBy (fun r : SRec => r.docname) (buildDictBy (fun r : SRec => r.docname) extracted)
  let rr := runRecs (ssacStep wok pageOf now) fs docs
  if rr.newFetch && !rr.aborted then
    ⟨rr, true, some ⟨ssacHeader today, docs⟩, fsAddFile rr.fs "sac-index.txt" now⟩
  else ⟨rr, false, none, rr.fs⟩

/-- `mirror_rssac_documents` (lines 190-258), from the extracted records. -/
def mirror_rssac_documents (wok : String → Bool) (today : String) (now : Nat)
    (fs : FS) (extracted : List RRec) : FamRes RRec :=
  let docs := sortDescBy (fun r : RRec => r.docname) (buildDictBy (fun r : RRec => r.docname) extracted)
  let rr := runRecs (rssacStep wok now) fs docs
  if rr.newFetch && !rr.aborted then
    ⟨rr, true, some ⟨rssacHeader today, docs⟩, fsAddFile rr.fs "rssac-index.txt" now⟩
  else ⟨rr, false, none, rr.fs⟩

/-- `mirror_octo_documents` (lines 261-310): the temporary index is built
row by row in page order (no sorting, every row gets an entry), the rows
are fetched in page order, and the accumulated index is saved to
`octo-index.txt` iff a new file was fetched. -/
def mirror_octo_documents (wok : String → Bool) (today : String) (now : Nat)
    (fs : FS) (rows : List ORec) : FamRes ORec :=
  let rr := runRecs (octoStep wok now) fs rows
  if rr.newFetch && !rr.aborted then
    ⟨rr, true, some ⟨octoHeader today, rows⟩, fsAddFile rr.fs "octo-index.txt" now⟩
  else ⟨rr, false, none, rr.fs⟩

/-- `cmd_mirror` (lines 313-322): the three families in sequence; an
uncaught exception in the SSAC mirror propagates and the RSSAC and OCTO
mirrors never run. -/
structure MirrorRes where
  ssac : FamRes SRec
  rssac : Option (FamRes RRec)
  octo : Option (FamRes ORec)

def cmd_mirror (wok : String → Bool) (pageOf : String → Html) (today : String)
    (now : Nat) (fsS fsR fsO : FS)
    (recsS : List SRec) (recsR : List RRec) (recsO : List ORec) : MirrorRes :=
  let s := mirror_ssac_documents wok pageOf today now fsS recsS
  if s.run.aborted then ⟨s, none, none⟩
  else
    ⟨s, some (mirror_rssac_documents wok today now fsR recsR),
      some (mirror_octo_documents wok today now fsO recsO)⟩

/-! ## Document opener (`cmd_open_doc`, lines 325-359) -/

/-- Fuel-driven glob matcher for `fnmatch.fnmatch` as used here (`*` any
sequence, `?` any single character, other characters literal; the
patterns built by `cmd_open_doc` contain no character classes).  The fuel
`pat.length + name.length + 1` strictly exceeds the recursion depth. -/
def globMatchF : Nat → List Char → List Char → Bool
  | 0, _, _ => false
  | _ + 1, [], [] => true
  | _ + 1, [], _ :: _ => false
  | fuel + 1, '*' :: ps, [] => globMatchF fuel ps []
  | fuel + 1, '*' :: ps, c :: cs =>
    globMatchF fuel ps (c :: cs) || globMatchF fuel ('*' :: ps) cs
  | _ + 1, '?' :: _, [] => false
  | fuel + 1, '?' :: ps, _ :: cs => globMatchF fuel ps cs
  | _ + 1, _ :: _, [] => false
  | fuel + 1, p :: ps, c :: cs => (p == c) && globMatchF fuel ps cs

/-- `fnmatch.fnmatch(name, pat)` (case-sensitive, as on a POSIX system). -/
def fnmatchB (name pat : String) : Bool :=
  globMatchF (pat.data.length + name.data.length + 1) pat.data name.data

/-- Python `int(s)` restricted to an optional sign and decimal digits
(`None` when `int` raises `ValueError`). -/
def digitsVal (l : List Char) : Option Nat :=
  if l = [] then none
  else if l.all (fun c => c.isDigit) then
    some (l.foldl (fun a c => a * 10 + (c.toNat - 48)) 0)
  else none

def parseIntOpt (s : String) : Option Int :=
  match s.data with
  | '+' :: rest => (digitsVal rest).map (fun n => (n : Int))
  | '-' :: rest => (digitsVal rest).map (fun n => -(n : Int))
  | l => (digitsVal l).map (fun n => (n : Int))

/-- Python `"%03d" % n`: minimum width 3 including the sign, zero padded. -/
def fmt03d (n : Int) : String :=
  let digits := Nat.repr n.natAbs
  let w := if n < 0 then 2 else 3
  let padded :=
    if digits.data.length ≥ w then digits
    else String.mk (List.replicate (w - digits.data.length) '0') ++ digits
  if n < 0 then "-" ++ padded else padded

/-- Observable result of `cmd_open_doc`: which files were handed to the
OS `open` command, or the message of the failure/no-match path. -/
inductive OpenRes where
  | openedIndex : OpenRes
  | opened : List String → OpenRes
  | noDoc : String → OpenRes
  | fatal : String → OpenRes
  deriving DecidableEq

/-- Process exit code of each path: `sys.exit(msg)` exits with status 1,
every other path falls through to exit status 0. -/
def OpenRes.exitCode : OpenRes → Nat
  | OpenRes.fatal _ => 1
  | _ => 0

/-- `cmd_open_doc` (lines 325-359) over the directory listing `dirlist`
(the names `os.listdir` returns), filename prefix `fp`, and the user
token `num`. -/
def cmd_open_doc (dirlist : List String) (fp : String) (num : String) : OpenRes :=
  if num = "index" then OpenRes.openedIndex
  else if num.data.length > 3 then
    let matchstr := fp ++ "-" ++ num ++ "*.*"
    let fnlist := dirlist.filter (fun fn => fnmatchB fn matchstr)
    if fnlist.length = 1 then OpenRes.opened fnlist
    else OpenRes.fatal ("No published document matches " ++ fp ++ "-" ++ num ++ ".")
  else
    match parseIntOpt num with
    | none => OpenRes.fatal "error: must provide a document number or 'index'"
    | some n =>
      let matchstr := fp ++ "-" ++ fmt03d n ++ "*-en.*"
      let fnlist := dirlist.filter (fun fn => fnmatchB fn matchstr)
      if fnlist.length = 0 then
        OpenRes.noDoc ("No published document for " ++ fp ++ "-" ++ fmt03d n ++ ".")
      else OpenRes.opened fnlist

/-! ## Order lemmas for the Python string order -/

theorem lexLt_asymm : ∀ as bs, lexLt as bs = true → lexLt bs as = false := by
  intro as
  induction as with
  | nil =>
    intro bs h
    cases bs with
    | nil => simp [lexLt] at h
    | cons b bs => simp [lexLt]
  | cons a as ih =>
    intro bs h
    cases bs with
    | nil => simp [lexLt] at h
    | cons b bs =>
      simp only [lexLt] at h ⊢
      by_cases h1 : a.toNat < b.toNat
      · have h2 : ¬ b.toNat < a.toNat := by omega
        simp [h1, h2]
      · rw [if_neg h1] at h
        by_cases h2 : b.toNat < a.toNat
        · rw [if_pos h2] at h
          exact absurd h (by simp)
        · rw [if_neg h2] at h
          simp only [if_neg h2, if_neg h1]
          exact ih bs h

theorem lexLt_negtrans :
    ∀ xs ys zs, lexLt xs zs = true → lexLt xs ys = true ∨ lexLt ys zs = true := by
  intro xs
  induction xs with
  | nil =>
    intro ys zs h
    cases zs with
    | nil => simp [lexLt] at h
    | cons c cs =>
      cases ys with
      | nil => right; simp [lexLt]
      | cons b bs => left; simp [lexLt]
  | cons a as ih =>
    intro ys zs h
    cases zs with
    | nil => simp [lexLt] at h
    | cons c cs =>
      cases ys with
      | nil => right; simp [lexLt]
      | cons b bs =>
        simp only [lexLt] at h ⊢
        by_cases hab : a.toNat < b.toNat
        · left; simp [hab]
        · by_cases hba : b.toNat < a.toNat
          · right
            by_cases hac : a.toNat < c.toNat
            · have hbc : b.toNat < c.toNat := by omega
              simp [hbc]
            · rw [if_neg hac] at h
              by_cases hca : c.toNat < a.toNat
              · rw [if_pos hca] at h
                exact absurd h (by simp)
              · have hbc : b.toNat < c.toNat := by omega
                simp [hbc]
          · by_cases hac : a.toNat < c.toNat
            · right
              have hbc : b.toNat < c.toNat := by omega
              simp [hbc]
            · rw [if_neg hac] at h
              by_cases hca : c.toNat < a.toNat
              · rw [if_pos hca] at h
                exact absurd h (by simp)
              · rw [if_neg hca] at h
                rcases ih bs cs h with h1 | h2
                · left; simp [hab, hba, h1]
                · right
                  have hbc : ¬ b.toNat < c.toNat := by omega
                  have hcb : ¬ c.toNat < b.toNat := by omega
                  simp [hbc, hcb, h2]

theorem strLe_total (a b : String) (h : strLe a b = false) : strLe b a = true := by
  unfold strLe strLt at *
  have h1 : lexLt b.data a.data = true := by
    cases hx : lexLt b.data a.data with
    | true => rfl
    | false => rw [hx] at h; simp at h
  have h2 := lexLt_asymm _ _ h1
  simp [h2]

theorem strLe_trans (a b c : String) (h1 : strLe a b = true) (h2 : strLe b c = true) :
    strLe a c = true := by
  unfold strLe strLt at *
  have hba : lexLt b.data a.data = false := by
    cases hx : lexLt b.data a.data with
    | false => rfl
    | true => rw [hx] at h1; simp at h1
  have hcb : lexLt c.data b.data = false := by
    cases hx : lexLt c.data b.data with
    | false => rfl
    | true => rw [hx] at h2; simp at h2
  cases hx : lexLt c.data a.data with
  | false => simp
  | true =>
    rcases lexLt_negtrans c.data b.data a.data hx with h | h
    · rw [h] at hcb; cases hcb
    · rw [h] at hba; cases hba

/-! ## Sortedness of the descending insertion sort -/

/-- Descending order by key (`a` before `b` is allowed when
`key b <= key a` in Python string order). -/
def DescBy (key : α → String) (a b : α) : Prop := strLe (key b) (key a) = true

theorem mem_insertDescBy (key : α → String) (r : α) :
    ∀ (l : List α) (y : α), y ∈ insertDescBy key r l ↔ y = r ∨ y ∈ l := by
  intro l
  induction l with
  | nil => intro y; simp [insertDescBy]
  | cons x xs ih =>
    intro y
    simp only [insertDescBy]
    split
    · simp [List.mem_cons]
    · simp only [List.mem_cons, ih y]
      tauto

theorem pairwise_insertDescBy (key : α → String) (r : α) :
    ∀ l, List.Pairwise (DescBy key) l → List.Pairwise (DescBy key) (insertDescBy key r l) := by
  intro l
  induction l with
  | nil => intro _; simp [insertDescBy, DescBy]
  | cons x xs ih =>
    intro h
    rcases List.pairwise_cons.1 h with ⟨hx, hxs⟩
    simp only [insertDescBy]
    split
    · rename_i hle
      refine List.pairwise_cons.2 ⟨?_, h⟩
      intro y hy
      rcases List.mem_cons.1 hy with rfl | hy2
      · exact hle
      · exact strLe_trans _ _ _ (hx y hy2) hle
    · rename_i hle
      refine List.pairwise_cons.2 ⟨?_, ih hxs⟩
      intro y hy
      rcases (mem_insertDescBy key r xs y).1 hy with rfl | hy2
      · exact strLe_total _ _ (by simpa using hle)
      · exact hx y hy2

theorem sorted_sortDescBy (key : α → String) :
    ∀ l, List.Pairwise (DescBy key) (sortDescBy key l) := by
  intro l
  induction l with
  | nil => simp [sortDescBy]
  | cons x xs ih =>
    simp only [sortDescBy]
    exact pairwise_insertDescBy key x _ ih

/-! ## Filesystem lemmas -/

theorem fsExists_append (fs : FS) (e : FEntry) (m : String) :
    fsExists (fs ++ [e]) m = (fsExists fs m || (e.name == m)) := by
  simp [fsExists]

theorem fsExists_addFile_self (fs : FS) (n : String) (now : Nat) :
    fsExists (fsAddFile fs n now) n = true := by
  unfold fsAddFile
  split
  · rename_i h
    simp only [fsExists, List.any_eq_true] at h ⊢
    obtain ⟨e, he, hm⟩ := h
    refine ⟨_, List.mem_map.2 ⟨e, he, rfl⟩, ?_⟩
    simp [hm]
  · simp [fsExists_append]

theorem fsExists_addFile_mono (fs : FS) (n : String) (now : Nat) (m : String)
    (h : fsExists fs m = true) : fsExists (fsAddFile fs n now) m = true := by
  unfold fsAddFile
  split
  · simp only [fsExists, List.any_eq_true] at h ⊢
    obtain ⟨e, he, hm⟩ := h
    refine ⟨_, List.mem_map.2 ⟨e, he, rfl⟩, ?_⟩
    by_cases hn : (e.name == n) = true
    · have h1 : e.name = n := by simpa using hn
      have h2 : e.name = m := by simpa using hm
      have hnm : n = m := h1.symm.trans h2
      subst hnm
      simp [hn]
    · simp [hn, hm]
  · rw [fsExists_append, h]
    simp

theorem fsExists_addLink_mono (fs : FS) (n target : String) (now : Nat) (m : String)
    (h : fsExists fs m = true) : fsExists (fsAddLink fs n target now) m = true := by
  rw [fsAddLink, fsExists_append, h]
  simp

theorem fsExists_addLink_self (fs : FS) (n target : String) (now : Nat) :
    fsExists (fsAddLink fs n target now) n = true := by
  rw [fsAddLink, fsExists_append]
  simp

theorem fsAddFile_not_exists (fs : FS) (n : String) (now : Nat)
    (h : fsExists fs n = false) : fsAddFile fs n now = fs ++ [⟨n, FKind.file, now⟩] := by
  simp [fsAddFile, h]

theorem fsLinks_append_file (fs : FS) (n : String) (t : Nat) :
    fsLinks (fs ++ [⟨n, FKind.file, t⟩]) = fsLinks fs := by
  simp [fsLinks, List.filter_append]

/-! ## Generic lemmas about the record loop -/

theorem runRecs_nil (step : FS → α → StepRes) (fs : FS) :
    runRecs step fs [] = ⟨fs, [], [], [], false, false⟩ := rfl

theorem runRecs_cons_abort (step : FS → α → StepRes) (fs : FS) (r : α) (rest : List α)
    (fs1 : FS) (o : Outcome) (reqs errs : List String) (f : Bool)
    (h : step fs r = ⟨fs1, o, reqs, errs, f, true⟩) :
    runRecs step fs (r :: rest) = ⟨fs1, [o], reqs, errs, f, true⟩ := by
  simp [runRecs, h]

theorem runRecs_cons_ok (step : FS → α → StepRes) (fs : FS) (r : α) (rest : List α)
    (fs1 : FS) (o : Outcome) (reqs errs : List String) (f : Bool)
    (h : step fs r = ⟨fs1, o, reqs, errs, f, false⟩) :
    runRecs step fs (r :: rest) =
      ⟨(runRecs step fs1 rest).fs, o :: (runRecs step fs1 rest).outcomes,
        reqs ++ (runRecs step fs1 rest).requests, errs ++ (runRecs step fs1 rest).errors,
        f || (runRecs step fs1 rest).newFetch, (runRecs step fs1 rest).aborted⟩ := by
  simp [runRecs, h]

/-- The loop only ever adds directory entries: anything that exists before
a run still exists after it. -/
theorem runRecs_mono (step : FS → α → StepRes)
    (H : ∀ fs r n, fsExists fs n = true → fsExists ((step fs r).fs) n = true) :
    ∀ (recs : List α) (fs : FS) (n : String),
      fsExists fs n = true → fsExists ((runRecs step fs recs).fs) n = true := by
  intro recs
  induction recs with
  | nil => intro fs n h; simpa [runRecs_nil] using h
  | cons r rest ih =>
    intro fs n h
    rcases hstep : step fs r with ⟨fs1, o, reqs, errs, f, ab⟩
    have hfs1 : fsExists fs1 n = true := by
      have := H fs r n h
      rw [hstep] at this
      exact this
    cases ab with
    | true => rw [runRecs_cons_abort step fs r rest fs1 o reqs errs f hstep]; exact hfs1
    | false =>
      rw [runRecs_cons_ok step fs r rest fs1 o reqs errs f hstep]
      exact ih fs1 n hfs1

/-- `WriteIndexFile` ends up true exactly when some record's outcome was a
successful fetch. -/
theorem runRecs_newFetch_iff (step : FS → α → StepRes)
    (H : ∀ fs r, (step fs r).fetched = true ↔ (step fs r).outcome = Outcome.fetched) :
    ∀ (recs : List α) (fs : FS),
      (runRecs step fs recs).newFetch = true ↔
        Outcome.fetched ∈ (runRecs step fs recs).outcomes := by
  intro recs
  induction recs with
  | nil => intro fs; simp [runRecs_nil]
  | cons r rest ih =>
    intro fs
    rcases hstep : step fs r with ⟨fs1, o, reqs, errs, f, ab⟩
    have hf : f = true ↔ o = Outcome.fetched := by
      have := H fs r
      rw [hstep] at this
      exact this
    cases ab with
    | true =>
      rw [runRecs_cons_abort step fs r rest fs1 o reqs errs f hstep]
      simp only [List.mem_singleton]
      rw [hf]
      constructor
      · intro h; exact h.symm
      · intro h; exact h.symm
    | false =>
      rw [runRecs_cons_ok step fs r rest fs1 o reqs errs f hstep]
      simp only [Bool.or_eq_true, List.mem_cons]
      rw [hf, ih fs1]
      constructor
      · rintro (h | h)
        · left; exact h.symm
        · right; exact h
      · rintro (h | h)
        · left; exact h.symm
        · right; exact h

/-- A loop whose step never raises never aborts. -/
theorem runRecs_no_abort (step : FS → α → StepRes)
    (H : ∀ fs r, (step fs r).aborted = false) :
    ∀ (recs : List α) (fs : FS), (runRecs step fs recs).aborted = false := by
  intro recs
  induction recs with
  | nil => intro fs; simp [runRecs_nil]
  | cons r rest ih =>
    intro fs
    rcases hstep : step fs r with ⟨fs1, o, reqs, errs, f, ab⟩
    have hab : ab = false := by
      have := H fs r
      rw [hstep] at this
      exact this
    subst hab
    rw [runRecs_cons_ok step fs r rest fs1 o reqs errs f hstep]
    exact ih fs1

/-- If the file a request would store already exists at the start of the
run, that request is never issued: the step only requests `u` from a state
where `u`'s target file is absent, and files are never removed. -/
theorem runRecs_no_request (step : FS → α → StepRes) (u tgt : String)
    (Hmono : ∀ fs r n, fsExists fs n = true → fsExists ((step fs r).fs) n = true)
    (Hreq : ∀ fs r, u ∈ (step fs r).requests → fsExists fs tgt = false) :
    ∀ (recs : List α) (fs : FS),
      fsExists fs tgt = true → u ∉ (runRecs step fs recs).requests := by
  intro recs
  induction recs with
  | nil => intro fs _; simp [runRecs_nil]
  | cons r rest ih =>
    intro fs h
    rcases hstep : step fs r with ⟨fs1, o, reqs, errs, f, ab⟩
    have hreqs : u ∉ reqs := by
      intro hmem
      have := Hreq fs r (by rw [hstep]; exact hmem)
      rw [h] at this
      cases this
    have hfs1 : fsExists fs1 tgt = true := by
      have := Hmono fs r tgt h
      rw [hstep] at this
      exact this
    cases ab with
    | true =>
      rw [runRecs_cons_abort step fs r rest fs1 o reqs errs f hstep]
      exact hreqs
    | false =>
      rw [runRecs_cons_ok step fs r rest fs1 o reqs errs f hstep]
      simp only [List.mem_append]
      rintro (hmem | hmem)
      · exact hreqs hmem
      · exact ih fs1 hfs1 hmem

/-- A run in which every record's file already exists or whose fetch fails
again changes nothing: no file is stored, nothing aborts, the directory is
untouched. -/
theorem runRecs_stable (step : FS → α → StepRes) (fname : α → String) (wokUrl : α → Bool)
    (Hsf : ∀ fs r, (fsExists fs (fname r) = true ∨ wokUrl r = false) →
      (step fs r).fs = fs ∧ (step fs r).fetched = false ∧ (step fs r).aborted = false ∧
        (step fs r).outcome ≠ Outcome.fetched) :
    ∀ (recs : List α) (fs : FS),
      (∀ r ∈ recs, fsExists fs (fname r) = true ∨ wokUrl r = false) →
      (runRecs step fs recs).fs = fs ∧ (runRecs step fs recs).newFetch = false ∧
        (runRecs step fs recs).aborted = false ∧
        Outcome.fetched ∉ (runRecs step fs recs).outcomes := by
  intro recs
  induction recs with
  | nil => intro fs _; simp [runRecs_nil]
  | cons r rest ih =>
    intro fs h
    have hr := Hsf fs r (h r (List.mem_cons_self r rest))
    rcases hstep : step fs r with ⟨fs1, o, reqs, errs, f, ab⟩
    rw [hstep] at hr
    dsimp only at hr
    obtain ⟨hfs, hf, hab, ho⟩ := hr
    rw [hfs, hf, hab] at hstep
    rw [runRecs_cons_ok step fs r rest fs o reqs errs false hstep]
    have hrest := ih fs (fun x hx => h x (List.mem_cons_of_mem r hx))
    refine ⟨hrest.1, ?_, hrest.2.2.1, ?_⟩
    · simp [hrest.2.1]
    · simp only [List.mem_cons]
      rintro (hc | hc)
      · exact ho hc.symm
      · exact hrest.2.2.2 hc

/-- After a run that did not abort, every record's file exists or its
fetch fails deterministically. -/
theorem runRecs_covered (step : FS → α → StepRes) (fname : α → String) (wokUrl : α → Bool)
    (Hmono : ∀ fs r n, fsExists fs n = true → fsExists ((step fs r).fs) n = true)
    (Hcov : ∀ fs r, (step fs r).aborted = false →
      fsExists ((step fs r).fs) (fname r) = true ∨ wokUrl r = false) :
    ∀ (recs : List α) (fs : FS),
      (runRecs step fs recs).aborted = false →
      ∀ r ∈ recs, fsExists ((runRecs step fs recs).fs) (fname r) = true ∨ wokUrl r = false := by
  intro recs
  induction recs with
  | nil => intro fs _ r hr; cases hr
  | cons x rest ih =>
    intro fs hna r hr
    rcases hstep : step fs x with ⟨fs1, o, reqs, errs, f, ab⟩
    cases ab with
    | true =>
      rw [runRecs_cons_abort step fs x rest fs1 o reqs errs f hstep] at hna
      cases hna
    | false =>
      rw [runRecs_cons_ok step fs x rest fs1 o reqs errs f hstep] at hna ⊢
      simp only at hna ⊢
      rcases List.mem_cons.1 hr with rfl | hr2
      · have hc := Hcov fs r (by rw [hstep])
        rw [hstep] at hc
        rcases hc with hc | hc
        · left
          exact runRecs_mono step Hmono rest fs1 (fname r) hc
        · right; exact hc
      · exact ih fs1 hna r hr2

/-! ## SSAC step lemmas -/

theorem ssacStep_skip (wok : String → Bool) (pageOf : String → Html) (now : Nat)
    (fs : FS) (r : SRec) (h : fsExists fs (ssacFilenameOf r.url) = true) :
    ssacStep wok pageOf now fs r = ⟨fs, Outcome.skipped, [], [], false, false⟩ := by
  simp [ssacStep, h]

theorem ssacStep_fail (wok : String → Bool) (pageOf : String → Html) (now : Nat)
    (fs : FS) (r : SRec) (h1 : fsExists fs (ssacFilenameOf r.url) = false)
    (h2 : wok r.url = false) :
    ssacStep wok pageOf now fs r =
      ⟨fs, Outcome.fetchFailed, [r.url],
        ["Unable to fetch " ++ r.url ++ ".\n"], false, false⟩ := by
  simp [ssacStep, wget_file, h1, h2]

theorem ssacStep_mono (wok : String → Bool) (pageOf : String → Html) (now : Nat) :
    ∀ (fs : FS) (r : SRec) (n : String),
      fsExists fs n = true → fsExists ((ssacStep wok pageOf now fs r).fs) n = true := by
  intro fs r n h
  by_cases h1 : fsExists fs (ssacFilenameOf r.url) = true
  · rw [ssacStep_skip wok pageOf now fs r h1]
    exact h
  · have h1f : fsExists fs (ssacFilenameOf r.url) = false := by
      cases hx : fsExists fs (ssacFilenameOf r.url) with
      | true => exact absurd hx h1
      | false => rfl
    by_cases h2 : wok r.url = true
    · have hm1 : fsExists (fsAddFile fs (ssacFilenameOf r.url) now) n = true :=
        fsExists_addFile_mono fs (ssacFilenameOf r.url) now n h
      simp only [ssacStep, wget_file, h1f, h2, Bool.false_eq_true, if_false, if_true]
      split
      · split
        · exact hm1
        · split
          · exact hm1
          · split
            · exact hm1
            · exact fsExists_addLink_mono _ _ _ _ _ hm1
      · split
        · exact hm1
        · split
          · exact hm1
          · exact fsExists_addLink_mono _ _ _ _ _ hm1
    · have h2f : wok r.url = false := by
        cases hx : wok r.url with
        | true => exact absurd hx h2
        | false => rfl
      rw [ssacStep_fail wok pageOf now fs r h1f h2f]
      exact h

theorem ssacStep_fetched_iff (wok : String → Bool) (pageOf : String → Html) (now : Nat) :
    ∀ (fs : FS) (r : SRec),
      (ssacStep wok pageOf now fs r).fetched = true ↔
        (ssacStep wok pageOf now fs r).outcome = Outcome.fetched := by
  intro fs r
  by_cases h1 : fsExists fs (ssacFilenameOf r.url) = true
  · rw [ssacStep_skip wok pageOf now fs r h1]
    simp
  · have h1f : fsExists fs (ssacFilenameOf r.url) = false := by
      cases hx : fsExists fs (ssacFilenameOf r.url) with
      | true => exact absurd hx h1
      | false => rfl
    by_cases h2 : wok r.url = true
    · simp only [ssacStep, wget_file, h1f, h2, Bool.false_eq_true, if_false, if_true]
      repeat' split
      all_goals simp
    · have h2f : wok r.url = false := by
        cases hx : wok r.url with
        | true => exact absurd hx h2
        | false => rfl
      rw [ssacStep_fail wok pageOf now fs r h1f h2f]
      simp

theorem ssacStep_cov (wok : String → Bool) (pageOf : String → Html) (now : Nat) :
    ∀ (fs : FS) (r : SRec),
      (ssacStep wok pageOf now fs r).aborted = false →
        fsExists ((ssacStep wok pageOf now fs r).fs) (ssacFilenameOf r.url) = true ∨
          wok r.url = false := by
  intro fs r _
  by_cases h1 : fsExists fs (ssacFilenameOf r.url) = true
  · rw [ssacStep_skip wok pageOf now fs r h1]
    left
    exact h1
  · have h1f : fsExists fs (ssacFilenameOf r.url) = false := by
      cases hx : fsExists fs (ssacFilenameOf r.url) with
      | true => exact absurd hx h1
      | false => rfl
    by_cases h2 : wok r.url = true
    · left
      have hm1 : fsExists (fsAddFile fs (ssacFilenameOf r.url) now) (ssacFilenameOf r.url) = true :=
        fsExists_addFile_self fs (ssacFilenameOf r.url) now
      simp only [ssacStep, wget_file, h1f, h2, Bool.false_eq_true, if_false, if_true]
      split
      · split
        · exact hm1
        · split
          · exact hm1
          · split
            · exact hm1
            · exact fsExists_addLink_mono _ _ _ _ _ hm1
      · split
        · exact hm1
        · split
          · exact hm1
          · exact fsExists_addLink_mono _ _ _ _ _ hm1
    · right
      cases hx : wok r.url with
      | true => exact absurd hx h2
      | false => rfl

theorem ssacStep_req (wok : String → Bool) (pageOf : String → Html) (now : Nat) (u : String) :
    ∀ (fs : FS) (r : SRec),
      u ∈ (ssacStep wok pageOf now fs r).requests → fsExists fs (ssacFilenameOf u) = false := by
  intro fs r hmem
  by_cases h1 : fsExists fs (ssacFilenameOf r.url) = true
  · rw [ssacStep_skip wok pageOf now fs r h1] at hmem
    cases hmem
  · have h1f : fsExists fs (ssacFilenameOf r.url) = false := by
      cases hx : fsExists fs (ssacFilenameOf r.url) with
      | true => exact absurd hx h1
      | false => rfl
    have hu : u = r.url := by
      by_cases h2 : wok r.url = true
      · simp only [ssacStep, wget_file, h1f, h2, Bool.false_eq_true, if_false, if_true] at hmem
        revert hmem
        repeat' split
        all_goals (intro hmem; simpa using hmem)
      · have h2f : wok r.url = false := by
          cases hx : wok r.url with
          | true => exact absurd hx h2
          | false => rfl
        rw [ssacStep_fail wok pageOf now fs r h1f h2f] at hmem
        simpa using hmem
    rw [hu]
    exact h1f

theorem ssacStep_stable (wok : String → Bool) (pageOf : String → Html) (now : Nat) :
    ∀ (fs : FS) (r : SRec),
      (fsExists fs (ssacFilenameOf r.url) = true ∨ wok r.url = false) →
      (ssacStep wok pageOf now fs r).fs = fs ∧
        (ssacStep wok pageOf now fs r).fetched = false ∧
        (ssacStep wok pageOf now fs r).aborted = false ∧
        (ssacStep wok pageOf now fs r).outcome ≠ Outcome.fetched := by
  intro fs r h
  by_cases h1 : fsExists fs (ssacFilenameOf r.url) = true
  · rw [ssacStep_skip wok pageOf now fs r h1]
    refine ⟨rfl, rfl, rfl, ?_⟩
    intro hc
    cases hc
  · have h1f : fsExists fs (ssacFilenameOf r.url) = false := by
      cases hx : fsExists fs (ssacFilenameOf r.url) with
      | true => exact absurd hx h1
      | false => rfl
    have h2f : wok r.url = false := by
      rcases h with h | h
      · exact absurd h h1
      · exact h
    rw [ssacStep_fail wok pageOf now fs r h1f h2f]
    refine ⟨rfl, rfl, rfl, ?_⟩
    intro hc
    cases hc

/-! ## RSSAC step lemmas -/

theorem rssacStep_skip (wok : String → Bool) (now : Nat) (fs : FS) (r : RRec)
    (h : fsExists fs (basename r.url) = true) :
    rssacStep wok now fs r = ⟨fs, Outcome.skipped, [], [], false, false⟩ := by
  simp [rssacStep, h]

theorem rssacStep_fail (wok : String → Bool) (now : Nat) (fs : FS) (r : RRec)
    (h1 : fsExists fs (basename r.url) = false) (h2 : wok r.url = false) :
    rssacStep wok now fs r =
      ⟨fs, Outcome.fetchFailed, [r.url],
        ["Unable to fetch " ++ r.url ++ ".\n"], false, false⟩ := by
  simp [rssacStep, wget_file, h1, h2]

theorem rssacStep_mono (wok : String → Bool) (now : Nat) :
    ∀ (fs : FS) (r : RRec) (n : String),
      fsExists fs n = true → fsExists ((rssacStep wok now fs r).fs) n = true := by
  intro fs r n h
  by_cases h1 : fsExists fs (basename r.url) = true
  · rw [rssacStep_skip wok now fs r h1]
    exact h
  · have h1f : fsExists fs (basename r.url) = false := by
      cases hx : fsExists fs (basename r.url) with
      | true => exact absurd hx h1
      | false => rfl
    by_cases h2 : wok r.url = true
    · have hm1 : fsExists (fsAddFile fs (basename r.url) now) n = true :=
        fsExists_addFile_mono fs (basename r.url) now n h
      simp only [rssacStep, wget_file, h1f, h2, Bool.false_eq_true, if_false, if_true]
      split
      · exact hm1
      · split
        · exact hm1
        · exact fsExists_addLink_mono _ _ _ _ _ hm1
    · have h2f : wok r.url = false := by
        cases hx : wok r.url with
        | true => exact absurd hx h2
        | false => rfl
      rw [rssacStep_fail wok now fs r h1f h2f]
      exact h

theorem rssacStep_fetched_iff (wok : String → Bool) (now : Nat) :
    ∀ (fs : FS) (r : RRec),
      (rssacStep wok now fs r).fetched = true ↔
        (rssacStep wok now fs r).outcome = Outcome.fetched := by
  intro fs r
  by_cases h1 : fsExists fs (basename r.url) = true
  · rw [rssacStep_skip wok now fs r h1]
    simp
  · have h1f : fsExists fs (basename r.url) = false := by
      cases hx : fsExists fs (basename r.url) with
      | true => exact absurd hx h1
      | false => rfl
    by_cases h2 : wok r.url = true
    · simp only [rssacStep, wget_file, h1f, h2, Bool.false_eq_true, if_false, if_true]
      repeat' split
      all_goals simp
    · have h2f : wok r.url = false := by
        cases hx : wok r.url with
        | true => exact absurd hx h2
        | false => rfl
      rw [rssacStep_fail wok now fs r h1f h2f]
      simp

theorem rssacStep_no_abort (wok : String → Bool) (now : Nat) :
    ∀ (fs : FS) (r : RRec), (rssacStep wok now fs r).aborted = false := by
  intro fs r
  by_cases h1 : fsExists fs (basename r.url) = true
  · rw [rssacStep_skip wok now fs r h1]
  · have h1f : fsExists fs (basename r.url) = false := by
      cases hx : fsExists fs (basename r.url) with
      | true => exact absurd hx h1
      | false => rfl
    by_cases h2 : wok r.url = true
    · simp only [rssacStep, wget_file, h1f, h2, Bool.false_eq_true, if_false, if_true]
      repeat' split
      all_goals rfl
    · have h2f : wok r.url = false := by
        cases hx : wok r.url with
        | true => exact absurd hx h2
        | false => rfl
      rw [rssacStep_fail wok now fs r h1f h2f]

theorem rssacStep_cov (wok : String → Bool) (now : Nat) :
    ∀ (fs : FS) (r : RRec),
      (rssacStep wok now fs r).aborted = false →
        fsExists ((rssacStep wok now fs r).fs) (basename r.url) = true ∨
          wok r.url = false := by
  intro fs r _
  by_cases h1 : fsExists fs (basename r.url) = true
  · rw [rssacStep_skip wok now fs r h1]
    left
    exact h1
  · have h1f : fsExists fs (basename r.url) = false := by
      cases hx : fsExists fs (basename r.url) with
      | true => exact absurd hx h1
      | false => rfl
    by_cases h2 : wok r.url = true
    · left
      have hm1 : fsExists (fsAddFile fs (basename r.url) now) (basename r.url) = true :=
        fsExists_addFile_self fs (basename r.url) now
      simp only [rssacStep, wget_file, h1f, h2, Bool.false_eq_true, if_false, if_true]
      split
      · exact hm1
      · split
        · exact hm1
        · exact fsExists_addLink_mono _ _ _ _ _ hm1
    · right
      cases hx : wok r.url with
      | true => exact absurd hx h2
      | false => rfl

theorem rssacStep_req (wok : String → Bool) (now : Nat) (u : String) :
    ∀ (fs : FS) (r : RRec),
      u ∈ (rssacStep wok now fs r).requests → fsExists fs (basename u) = false := by
  intro fs r hmem
  by_cases h1 : fsExists fs (basename r.url) = true
  · rw [rssacStep_skip wok now fs r h1] at hmem
    cases hmem
  · have h1f : fsExists fs (basename r.url) = false := by
      cases hx : fsExists fs (basename r.url) with
      | true => exact absurd hx h1
      | false => rfl
    have hu : u = r.url := by
      by_cases h2 : wok r.url = true
      · simp only [rssacStep, wget_file, h1f, h2, Bool.false_eq_true, if_false, if_true] at hmem
        revert hmem
        repeat' split
        all_goals (intro hmem; simpa using hmem)
      · have h2f : wok r.url = false := by
          cases hx : wok r.url with
          | true => exact absurd hx h2
          | false => rfl
        rw [rssacStep_fail wok now fs r h1f h2f] at hmem
        simpa using hmem
    rw [hu]
    exact h1f

theorem rssacStep_stable (wok : String → Bool) (now : Nat) :
    ∀ (fs : FS) (r : RRec),
      (fsExists fs (basename r.url) = true ∨ wok r.url = false) →
      (rssacStep wok now fs r).fs = fs ∧
        (rssacStep wok now fs r).fetched = false ∧
        (rssacStep wok now fs r).aborted = false ∧
        (rssacStep wok now fs r).outcome ≠ Outcome.fetched := by
  intro fs r h
  by_cases h1 : fsExists fs (basename r.url) = true
  · rw [rssacStep_skip wok now fs r h1]
    refine ⟨rfl, rfl, rfl, ?_⟩
    intro hc
    cases hc
  · have h1f : fsExists fs (basename r.url) = false := by
      cases hx : fsExists fs (basename r.url) with
      | true => exact absurd hx h1
      | false => rfl
    have h2f : wok r.url = false := by
      rcases h with h | h
      · exact absurd h h1
      · exact h
    rw [rssacStep_fail wok now fs r h1f h2f]
    refine ⟨rfl, rfl, rfl, ?_⟩
    intro hc
    cases hc

/-! ## OCTO step lemmas -/

theorem octoStep_skip (wok : String → Bool) (now : Nat) (fs : FS) (r : ORec)
    (h : fsExists fs (basename r.href) = true) :
    octoStep wok now fs r = ⟨fs, Outcome.skipped, [], [], false, false⟩ := by
  simp [octoStep, h]

theorem octoStep_fail (wok : String → Bool) (now : Nat) (fs : FS) (r : ORec)
    (h1 : fsExists fs (basename r.href) = false) (h2 : wok (octoUrlOf r.href) = false) :
    octoStep wok now fs r =
      ⟨fs, Outcome.fetchFailed, [octoUrlOf r.href],
        ["Unable to fetch " ++ octoUrlOf r.href ++ ".\n"], false, false⟩ := by
  simp [octoStep, wget_file, h1, h2]

theorem octoStep_fetch (wok : String → Bool) (now : Nat) (fs : FS) (r : ORec)
    (h1 : fsExists fs (basename r.href) = false) (h2 : wok (octoUrlOf r.href) = true) :
    octoStep wok now fs r =
      ⟨fsAddFile fs (basename r.href) now, Outcome.fetched, [octoUrlOf r.href],
        [], true, false⟩ := by
  simp [octoStep, wget_file, h1, h2]

theorem octoStep_mono (wok : String → Bool) (now : Nat) :
    ∀ (fs : FS) (r : ORec) (n : String),
      fsExists fs n = true → fsExists ((octoStep wok now fs r).fs) n = true := by
  intro fs r n h
  by_cases h1 : fsExists fs (basename r.href) = true
  · rw [octoStep_skip wok now fs r h1]
    exact h
  · have h1f : fsExists fs (basename r.href) = false := by
      cases hx : fsExists fs (basename r.href) with
      | true => exact absurd hx h1
      | false => rfl
    by_cases h2 : wok (octoUrlOf r.href) = true
    · rw [octoStep_fetch wok now fs r h1f h2]
      exact fsExists_addFile_mono fs (basename r.href) now n h
    · have h2f : wok (octoUrlOf r.href) = false := by
        cases hx : wok (octoUrlOf r.href) with
        | true => exact absurd hx h2
        | false => rfl
      rw [octoStep_fail wok now fs r h1f h2f]
      exact h

theorem octoStep_fetched_iff (wok : String → Bool) (now : Nat) :
    ∀ (fs : FS) (r : ORec),
      (octoStep wok now fs r).fetched = true ↔
        (octoStep wok now fs r).outcome = Outcome.fetched := by
  intro fs r
  by_cases h1 : fsExists fs (basename r.href) = true
  · rw [octoStep_skip wok now fs r h1]
    simp
  · have h1f : fsExists fs (basename r.href) = false := by
      cases hx : fsExists fs (basename r.href) with
      | true => exact absurd hx h1
      | false => rfl
    by_cases h2 : wok (octoUrlOf r.href) = true
    · rw [octoStep_fetch wok now fs r h1f h2]
      simp
    · have h2f : wok (octoUrlOf r.href) = false := by
        cases hx : wok (octoUrlOf r.href) with
        | true => exact absurd hx h2
        | false => rfl
      rw [octoStep_fail wok now fs r h1f h2f]
      simp

theorem octoStep_no_abort (wok : String → Bool) (now : Nat) :
    ∀ (fs : FS) (r : ORec), (octoStep wok now fs r).aborted = false := by
  intro fs r
  by_cases h1 : fsExists fs (basename r.href) = true
  · rw [octoStep_skip wok now fs r h1]
  · have h1f : fsExists fs (basename r.href) = false := by
      cases hx : fsExists fs (basename r.href) with
      | true => exact absurd hx h1
      | false => rfl
    by_cases h2 : wok (octoUrlOf r.href) = true
    · rw [octoStep_fetch wok now fs r h1f h2]
    · have h2f : wok (octoUrlOf r.href) = false := by
        cases hx : wok (octoUrlOf r.href) with
        | true => exact absurd hx h2
        | false => rfl
      rw [octoStep_fail wok now fs r h1f h2f]

theorem octoStep_cov (wok : String → Bool) (now : Nat) :
    ∀ (fs : FS) (r : ORec),
      (octoStep wok now fs r).aborted = false →
        fsExists ((octoStep wok now fs r).fs) (basename r.href) = true ∨
          wok (octoUrlOf r.href) = false := by
  intro fs r _
  by_cases h1 : fsExists fs (basename r.href) = true
  · rw [octoStep_skip wok now fs r h1]
    left
    exact h1
  · have h1f : fsExists fs (basename r.href) = false := by
      cases hx : fsExists fs (basename r.href) with
      | true => exact absurd hx h1
      | false => rfl
    by_cases h2 : wok (octoUrlOf r.href) = true
    · left
      rw [octoStep_fetch wok now fs r h1f h2]
      exact fsExists_addFile_self fs (basename r.href) now
    · right
      cases hx : wok (octoUrlOf r.href) with
      | true => exact absurd hx h2
      | false => rfl

theorem octoStep_stable (wok : String → Bool) (now : Nat) :
    ∀ (fs : FS) (r : ORec),
      (fsExists fs (basename r.href) = true ∨ wok (octoUrlOf r.href) = false) →
      (octoStep wok now fs r).fs = fs ∧
        (octoStep wok now fs r).fetched = false ∧
        (octoStep wok now fs r).aborted = false ∧
        (octoStep wok now fs r).outcome ≠ Outcome.fetched := by
  intro fs r h
  by_cases h1 : fsExists fs (basename r.href) = true
  · rw [octoStep_skip wok now fs r h1]
    refine ⟨rfl, rfl, rfl, ?_⟩
    intro hc
    cases hc
  · have h1f : fsExists fs (basename r.href) = false := by
      cases hx : fsExists fs (basename r.href) with
      | true => exact absurd hx h1
      | false => rfl
    have h2f : wok (octoUrlOf r.href) = false := by
      rcases h with h | h
      · exact absurd h h1
      · exact h
    rw [octoStep_fail wok now fs r h1f h2f]
    refine ⟨rfl, rfl, rfl, ?_⟩
    intro hc
    cases hc

/-! ## Claim C3: sanitizer timestamp preservation -/

/-- Claim C3 (code bug): the claim says `clean_html`'s in-place rewrite
preserves both the creation and the modification timestamps.  The code
reads `getctime`/`getmtime` and then calls `os.utime(path, (ctime, mtime))`,
but `os.utime` assigns `(atime, mtime)`: the modification time is restored,
while the original change/creation time is written into the access time and
the change time itself becomes the rewrite time.  At the failing input
(original atime 50, mtime 200, ctime 100, rewrite at time 300) the
resulting times are (100, 200, 300): the ctime is not preserved. -/
theorem c3_clean_html_ctime_not_preserved :
    clean_html_times ⟨50, 200, 100⟩ 300 = ⟨100, 200, 300⟩ ∧
      (clean_html_times ⟨50, 200, 100⟩ 300).mtime = 200 ∧
      ¬ (clean_html_times ⟨50, 200, 100⟩ 300).ctime = 100 ∧
      (∀ (t : FileTimes) (now : Nat), (clean_html_times t now).mtime = t.mtime) ∧
      (∀ (t : FileTimes) (now : Nat), (clean_html_times t now).ctime = now) ∧
      (∀ (t : FileTimes) (now : Nat), (clean_html_times t now).atime = t.ctime) :=
  ⟨by decide, by decide, by decide, fun _ _ => rfl, fun _ _ => rfl, fun _ _ => rfl⟩

/-! ## Claim C7: opener exact-suffix match -/

/-- Claim C7: for a token longer than 3 characters (other than `"index"`)
the opener requests the glob `<fp>-<num>*.*`; exactly one match is opened,
any other number of matches is a fatal diagnostic naming the prefix and
the token, with a non-zero exit status. -/
theorem c7_open_exact_match (dirlist : List String) (fp num : String)
    (h1 : num ≠ "index") (h2 : num.data.length > 3) :
    ((dirlist.filter (fun fn => fnmatchB fn (fp ++ "-" ++ num ++ "*.*"))).length = 1 →
        cmd_open_doc dirlist fp num =
          OpenRes.opened (dirlist.filter (fun fn => fnmatchB fn (fp ++ "-" ++ num ++ "*.*")))) ∧
      ((dirlist.filter (fun fn => fnmatchB fn (fp ++ "-" ++ num ++ "*.*"))).length ≠ 1 →
        cmd_open_doc dirlist fp num =
            OpenRes.fatal ("No published document matches " ++ fp ++ "-" ++ num ++ ".") ∧
          (cmd_open_doc dirlist fp num).exitCode ≠ 0) := by
  by_cases hlen :
      (dirlist.filter (fun fn => fnmatchB fn (fp ++ "-" ++ num ++ "*.*"))).length = 1
  · refine ⟨fun _ => ?_, fun hc => absurd hlen hc⟩
    unfold cmd_open_doc
    rw [if_neg h1, if_pos h2]
    simp only [hlen, if_pos]
  · refine ⟨fun hc => absurd hc hlen, fun _ => ?_⟩
    have hres : cmd_open_doc dirlist fp num =
        OpenRes.fatal ("No published document matches " ++ fp ++ "-" ++ num ++ ".") := by
      unfold cmd_open_doc
      rw [if_neg h1, if_pos h2]
      simp only [hlen, if_neg, if_false]
    refine ⟨hres, ?_⟩
    rw [hres]
    simp [OpenRes.exitCode]

/-! ## Claim C8: opener numeric match -/

/-- Claim C8: a token of at most 3 characters that parses as an integer is
zero-padded to three digits and matched with the glob `<fp>-NNN*-en.*`;
zero matches is the informational no-document path with exit status 0,
and otherwise every matching file is opened. -/
theorem c8_open_numeric (dirlist : List String) (fp num : String) (n : Int)
    (h2 : ¬ num.data.length > 3) (h3 : parseIntOpt num = some n) :
    ((dirlist.filter (fun fn => fnmatchB fn (fp ++ "-" ++ fmt03d n ++ "*-en.*"))).length = 0 →
        cmd_open_doc dirlist fp num =
            OpenRes.noDoc ("No published document for " ++ fp ++ "-" ++ fmt03d n ++ ".") ∧
          (cmd_open_doc dirlist fp num).exitCode = 0) ∧
      ((dirlist.filter (fun fn => fnmatchB fn (fp ++ "-" ++ fmt03d n ++ "*-en.*"))).length ≠ 0 →
        cmd_open_doc dirlist fp num =
          OpenRes.opened
            (dirlist.filter (fun fn => fnmatchB fn (fp ++ "-" ++ fmt03d n ++ "*-en.*")))) := by
  have h1 : num ≠ "index" := by
    intro he
    rw [he] at h2
    exact h2 (by decide)
  by_cases hlen :
      (dirlist.filter (fun fn => fnmatchB fn (fp ++ "-" ++ fmt03d n ++ "*-en.*"))).length = 0
  · refine ⟨fun _ => ?_, fun hc => absurd hlen hc⟩
    have hres : cmd_open_doc dirlist fp num =
        OpenRes.noDoc ("No published document for " ++ fp ++ "-" ++ fmt03d n ++ ".") := by
      unfold cmd_open_doc
      rw [if_neg h1, if_neg h2, h3]
      simp only [hlen, if_pos]
    refine ⟨hres, ?_⟩
    rw [hres]
    rfl
  · refine ⟨fun hc => absurd hc hlen, fun _ => ?_⟩
    unfold cmd_open_doc
    rw [if_neg h1, if_neg h2, h3]
    simp only [hlen, if_neg, if_false]

/-- Claim C7 witness: with the two files from the spec scenario both
matching `sac-036b*.*`, the operation is the fatal path with exit 1. -/
theorem c7_open_exact_match_witness :
    ("036b" : String) ≠ "index" ∧ ("036b" : String).data.length > 3 ∧
      cmd_open_doc ["sac-036b-en.pdf", "sac-036bv2-en.pdf"] "sac" "036b" =
          OpenRes.fatal "No published document matches sac-036b." ∧
        (cmd_open_doc ["sac-036b-en.pdf", "sac-036bv2-en.pdf"] "sac" "036b").exitCode ≠ 0 :=
  ⟨by decide, by decide,
    (c7_open_exact_match ["sac-036b-en.pdf", "sac-036bv2-en.pdf"] "sac" "036b"
        (by decide) (by decide)).2 (by decide)⟩

/-- Claim C8 witness: token `"7"` with both `sac-007-en.pdf` and
`sac-007-en.htm` present opens both files. -/
theorem c8_open_numeric_witness :
    ¬ ("7" : String).data.length > 3 ∧ parseIntOpt "7" = some 7 ∧
      cmd_open_doc ["sac-007-en.pdf", "sac-007-en.htm", "sac-101-en.pdf"] "sac" "7" =
        OpenRes.opened ["sac-007-en.pdf", "sac-007-en.htm"] :=
  ⟨by decide, by decide, by
    have h := (c8_open_numeric ["sac-007-en.pdf", "sac-007-en.htm", "sac-101-en.pdf"]
        "sac" "7" 7 (by decide) (by decide)).2 (by decide)
    rw [h]
    decide⟩

/-! ## String append helpers -/

theorem strAppend_left_cancel (p a b : String) (h : p ++ a = p ++ b) : a = b := by
  cases a with
  | mk la =>
    cases b with
    | mk lb =>
      cases p with
      | mk lp =>
        simp only [String.ext_iff] at h ⊢
        simpa using h

theorem strStarts_append (p s : String) : strStarts (p ++ s) p = true := by
  rw [strStarts, String.data_append]
  exact (List.isPrefixOf_iff_prefix).2 (List.prefix_append _ _)

theorem ssacLinkName_starts (d f : String) : strStarts (ssacLinkName d f) "sac-" = true := by
  unfold ssacLinkName
  split
  · split
    · dsimp only
      rw [String.append_assoc, String.append_assoc]
      exact strStarts_append _ _
    · dsimp only
      rw [String.append_assoc]
      exact strStarts_append _ _
  · split
    · dsimp only
      rw [String.append_assoc]
      exact strStarts_append _ _
    · dsimp only
      exact strStarts_append _ _

theorem rssacLinkName_starts (d : String) : strStarts (rssacLinkName d) "rssac-" = true := by
  unfold rssacLinkName
  rw [String.append_assoc]
  exact strStarts_append _ _

/-! ## Claim C9: an unguarded sanitizer failure aborts the whole mirror run -/

/-- Claim C9: a fetched SSAC HTML page whose parse has no usable `<title>`
makes `clean_html` raise; the call in the SSAC record loop is unguarded, so
the exception aborts the SSAC loop (the remaining, fetchable record is never
requested and no index is written) and propagates through `cmd_mirror`, so
the RSSAC and OCTO mirrors never run. -/
theorem c9_sanitizer_exception_aborts_run :
    clean_html ⟨none, none, none⟩ = none ∧
      (mirror_ssac_documents (fun _ => true) (fun _ => Html.mk none none none)
          "12-Oct-2026" 5 []
          [⟨"SAC100", "T1", "https://www.icann.org/x/doc-a-en"⟩,
            ⟨"SAC099", "T2", "https://x/b.pdf"⟩]).run.aborted = true ∧
      (mirror_ssac_documents (fun _ => true) (fun _ => Html.mk none none none)
          "12-Oct-2026" 5 []
          [⟨"SAC100", "T1", "https://www.icann.org/x/doc-a-en"⟩,
            ⟨"SAC099", "T2", "https://x/b.pdf"⟩]).run.outcomes = [Outcome.fetched] ∧
      "https://x/b.pdf" ∉
        (mirror_ssac_documents (fun _ => true) (fun _ => Html.mk none none none)
          "12-Oct-2026" 5 []
          [⟨"SAC100", "T1", "https://www.icann.org/x/doc-a-en"⟩,
            ⟨"SAC099", "T2", "https://x/b.pdf"⟩]).run.requests ∧
      fsExists
        (mirror_ssac_documents (fun _ => true) (fun _ => Html.mk none none none)
          "12-Oct-2026" 5 []
          [⟨"SAC100", "T1", "https://www.icann.org/x/doc-a-en"⟩,
            ⟨"SAC099", "T2", "https://x/b.pdf"⟩]).fs (ssacFilenameOf "https://x/b.pdf") = false ∧
      (mirror_ssac_documents (fun _ => true) (fun _ => Html.mk none none none)
          "12-Oct-2026" 5 []
          [⟨"SAC100", "T1", "https://www.icann.org/x/doc-a-en"⟩,
            ⟨"SAC099", "T2", "https://x/b.pdf"⟩]).indexWritten = false ∧
      (cmd_mirror (fun _ => true) (fun _ => Html.mk none none none) "12-Oct-2026" 5 [] [] []
          [⟨"SAC100", "T1", "https://www.icann.org/x/doc-a-en"⟩,
            ⟨"SAC099", "T2", "https://x/b.pdf"⟩] [] []).rssac = none ∧
      (cmd_mirror (fun _ => true) (fun _ => Html.mk none none none) "12-Oct-2026" 5 [] [] []
          [⟨"SAC100", "T1", "https://www.icann.org/x/doc-a-en"⟩,
            ⟨"SAC099", "T2", "https://x/b.pdf"⟩] [] []).octo = none := by
  decide

/-! ## Claim C10: the index header depends on the day of the run -/

/-- Claim C10: every regenerated index starts with a header carrying the
date of the run, so two runs over identical extracted records on different
days write indexes that differ in their header line. -/
theorem c10_index_header_depends_on_date :
    (∀ (wok : String → Bool) (pageOf : String → Html) (today : String) (now : Nat)
        (fs : FS) (recs : List SRec) (idx : IndexData SRec),
        (mirror_ssac_documents wok pageOf today now fs recs).index = some idx →
          idx.header = ssacHeader today) ∧
      (∀ (wok : String → Bool) (today : String) (now : Nat)
        (fs : FS) (recs : List RRec) (idx : IndexData RRec),
        (mirror_rssac_documents wok today now fs recs).index = some idx →
          idx.header = rssacHeader today) ∧
      (∀ (wok : String → Bool) (today : String) (now : Nat)
        (fs : FS) (rows : List ORec) (idx : IndexData ORec),
        (mirror_octo_documents wok today now fs rows).index = some idx →
          idx.header = octoHeader today) ∧
      (∀ t1 t2 : String, t1 ≠ t2 → ssacHeader t1 ≠ ssacHeader t2) ∧
      (∀ t1 t2 : String, t1 ≠ t2 → rssacHeader t1 ≠ rssacHeader t2) ∧
      (∀ t1 t2 : String, t1 ≠ t2 → octoHeader t1 ≠ octoHeader t2) := by
  refine ⟨?_, ?_, ?_, ?_, ?_, ?_⟩
  · intro wok pageOf today now fs recs idx h
    simp only [mirror_ssac_documents] at h
    split at h
    · cases h
      rfl
    · cases h
  · intro wok today now fs recs idx h
    simp only [mirror_rssac_documents] at h
    split at h
    · cases h
      rfl
    · cases h
  · intro wok today now fs rows idx h
    simp only [mirror_octo_documents] at h
    split at h
    · cases h
      rfl
    · cases h
  · intro t1 t2 hne hc
    exact hne (strAppend_left_cancel _ _ _ hc)
  · intro t1 t2 hne hc
    exact hne (strAppend_left_cancel _ _ _ hc)
  · intro t1 t2 hne hc
    exact hne (strAppend_left_cancel _ _ _ hc)

/-- Claim C10 witness: two concrete single-record runs on consecutive days
both write an index, and the theorem yields differing header lines. -/
theorem c10_index_header_witness :
    (mirror_ssac_documents (fun _ => true) (fun _ => Html.mk (some "T") none none)
        "11-Oct-2026" 3 [] [⟨"SAC001", "T", "https://x/a.pdf"⟩]).index =
      some ⟨ssacHeader "11-Oct-2026", [⟨"SAC001", "T", "https://x/a.pdf"⟩]⟩ ∧
    (mirror_ssac_documents (fun _ => true) (fun _ => Html.mk (some "T") none none)
        "12-Oct-2026" 4 [] [⟨"SAC001", "T", "https://x/a.pdf"⟩]).index =
      some ⟨ssacHeader "12-Oct-2026", [⟨"SAC001", "T", "https://x/a.pdf"⟩]⟩ ∧
    (IndexData.mk (α := SRec) (ssacHeader "11-Oct-2026")
          [⟨"SAC001", "T", "https://x/a.pdf"⟩]).header ≠
      (IndexData.mk (α := SRec) (ssacHeader "12-Oct-2026")
          [⟨"SAC001", "T", "https://x/a.pdf"⟩]).header :=
  ⟨by decide, by decide, by
    have h := c10_index_header_depends_on_date
    have h1 := h.1 (fun _ => true) (fun _ => Html.mk (some "T") none none)
      "11-Oct-2026" 3 [] [⟨"SAC001", "T", "https://x/a.pdf"⟩]
      ⟨ssacHeader "11-Oct-2026", [⟨"SAC001", "T", "https://x/a.pdf"⟩]⟩ (by decide)
    have h2 := h.1 (fun _ => true) (fun _ => Html.mk (some "T") none none)
      "12-Oct-2026" 4 [] [⟨"SAC001", "T", "https://x/a.pdf"⟩]
      ⟨ssacHeader "12-Oct-2026", [⟨"SAC001", "T", "https://x/a.pdf"⟩]⟩ (by decide)
    have h3 := (h.2.2.2).1 "11-Oct-2026" "12-Oct-2026" (by decide)
    rw [h1, h2]
    exact h3⟩

/-! ## Mirror projection helpers -/

theorem mirror_ssac_run (wok : String → Bool) (pageOf : String → Html) (today : String)
    (now : Nat) (fs : FS) (recs : List SRec) :
    (mirror_ssac_documents wok pageOf today now fs recs).run =
      runRecs (ssacStep wok pageOf now) fs
        (sortDescBy (fun r : SRec => r.docname)
          (buildDictBy (fun r : SRec => r.docname) recs)) := by
  simp only [mirror_ssac_documents]
  split <;> rfl

theorem mirror_rssac_run (wok : String → Bool) (today : String)
    (now : Nat) (fs : FS) (recs : List RRec) :
    (mirror_rssac_documents wok today now fs recs).run =
      runRecs (rssacStep wok now) fs
        (sortDescBy (fun r : RRec => r.docname)
          (buildDictBy (fun r : RRec => r.docname) recs)) := by
  simp only [mirror_rssac_documents]
  split <;> rfl

theorem mirror_octo_run (wok : String → Bool) (today : String)
    (now : Nat) (fs : FS) (rows : List ORec) :
    (mirror_octo_documents wok today now fs rows).run =
      runRecs (octoStep wok now) fs rows := by
  simp only [mirror_octo_documents]
  split <;> rfl

theorem octoStep_req (wok : String → Bool) (now : Nat) (href : String) :
    ∀ (fs : FS) (r : ORec),
      octoUrlOf href ∈ (octoStep wok now fs r).requests →
        fsExists fs (basename href) = false := by
  intro fs r hmem
  by_cases h1 : fsExists fs (basename r.href) = true
  · rw [octoStep_skip wok now fs r h1] at hmem
    cases hmem
  · have h1f : fsExists fs (basename r.href) = false := by
      cases hx : fsExists fs (basename r.href) with
      | true => exact absurd hx h1
      | false => rfl
    have hu : octoUrlOf href = octoUrlOf r.href := by
      by_cases h2 : wok (octoUrlOf r.href) = true
      · rw [octoStep_fetch wok now fs r h1f h2] at hmem
        simpa using hmem
      · have h2f : wok (octoUrlOf r.href) = false := by
          cases hx : wok (octoUrlOf r.href) with
          | true => exact absurd hx h2
          | false => rfl
        rw [octoStep_fail wok now fs r h1f h2f] at hmem
        simpa using hmem
    have hh : href = r.href := by
      unfold octoUrlOf at hu
      exact strAppend_left_cancel _ _ _ hu
    rw [hh]
    exact h1f

/-! ## Claim C4: a file present before the run is never re-fetched -/

/-- Claim C4: in every family, if a file already exists at a record's
derived local path before the run, no fetch request for that record's URL
is issued during the run — presence of the local file is the sole
de-duplication signal. -/
theorem c4_existing_file_never_refetched :
    (∀ (wok : String → Bool) (pageOf : String → Html) (today : String) (now : Nat)
        (fs : FS) (recs : List SRec) (url : String),
        fsExists fs (ssacFilenameOf url) = true →
          url ∉ (mirror_ssac_documents wok pageOf today now fs recs).run.requests) ∧
      (∀ (wok : String → Bool) (today : String) (now : Nat)
        (fs : FS) (recs : List RRec) (url : String),
        fsExists fs (basename url) = true →
          url ∉ (mirror_rssac_documents wok today now fs recs).run.requests) ∧
      (∀ (wok : String → Bool) (today : String) (now : Nat)
        (fs : FS) (rows : List ORec) (href : String),
        fsExists fs (basename href) = true →
          octoUrlOf href ∉ (mirror_octo_documents wok today now fs rows).run.requests) := by
  refine ⟨?_, ?_, ?_⟩
  · intro wok pageOf today now fs recs url h
    rw [mirror_ssac_run]
    exact runRecs_no_request (ssacStep wok pageOf now) url (ssacFilenameOf url)
      (ssacStep_mono wok pageOf now) (ssacStep_req wok pageOf now url) _ fs h
  · intro wok today now fs recs url h
    rw [mirror_rssac_run]
    exact runRecs_no_request (rssacStep wok now) url (basename url)
      (rssacStep_mono wok now) (rssacStep_req wok now url) _ fs h
  · intro wok today now fs rows href h
    rw [mirror_octo_run]
    exact runRecs_no_request (octoStep wok now) (octoUrlOf href) (basename href)
      (octoStep_mono wok now) (octoStep_req wok now href) rows fs h

/-- Claim C4 witness: concrete pre-populated directories; in each family
the pre-existing file's URL is never requested even though the record is
in the listing and the fetch oracle would succeed. -/
theorem c4_existing_file_never_refetched_witness :
    fsExists [⟨"b.pdf", FKind.file, 0⟩] (ssacFilenameOf "https://x/b.pdf") = true ∧
      "https://x/b.pdf" ∉
        (mirror_ssac_documents (fun _ => true) (fun _ => Html.mk (some "T") none none)
          "d" 1 [⟨"b.pdf", FKind.file, 0⟩] [⟨"SAC001", "T", "https://x/b.pdf"⟩]).run.requests ∧
      "https://x/r.pdf" ∉
        (mirror_rssac_documents (fun _ => true) "d" 1 [⟨"r.pdf", FKind.file, 0⟩]
          [⟨"RSSAC001", "T", "https://x/r.pdf", "2020"⟩]).run.requests ∧
      octoUrlOf "/f/o.pdf" ∉
        (mirror_octo_documents (fun _ => true) "d" 1 [⟨"o.pdf", FKind.file, 0⟩]
          [⟨"OCTO-001", "T", "2020", "/f/o.pdf"⟩]).run.requests :=
  ⟨by decide,
    c4_existing_file_never_refetched.1 (fun _ => true) (fun _ => Html.mk (some "T") none none)
      "d" 1 [⟨"b.pdf", FKind.file, 0⟩] [⟨"SAC001", "T", "https://x/b.pdf"⟩]
      "https://x/b.pdf" (by decide),
    c4_existing_file_never_refetched.2.1 (fun _ => true) "d" 1 [⟨"r.pdf", FKind.file, 0⟩]
      [⟨"RSSAC001", "T", "https://x/r.pdf", "2020"⟩] "https://x/r.pdf" (by decide),
    c4_existing_file_never_refetched.2.2 (fun _ => true) "d" 1 [⟨"o.pdf", FKind.file, 0⟩]
      [⟨"OCTO-001", "T", "2020", "/f/o.pdf"⟩] "/f/o.pdf" (by decide)⟩

/-! ## Claim C5: a per-record fetch failure is logged and the loop continues -/

/-- Claim C5: in each family's record loop, a fetch that does not produce
the expected file contributes a diagnostic line `Unable to fetch <url>.`
to the error stream and the loop continues: the run on `r :: rest` is
exactly the run on `rest` (same directory), with the failed record's
outcome, request and error message prepended, and the failure itself never
sets the abort flag. -/
theorem c5_fetch_failure_logged_and_continues :
    (∀ (wok : String → Bool) (pageOf : String → Html) (now : Nat) (fs : FS) (r : SRec)
        (rest : List SRec),
        fsExists fs (ssacFilenameOf r.url) = false → wok r.url = false →
        runRecs (ssacStep wok pageOf now) fs (r :: rest) =
          ⟨(runRecs (ssacStep wok pageOf now) fs rest).fs,
            Outcome.fetchFailed :: (runRecs (ssacStep wok pageOf now) fs rest).outcomes,
            r.url :: (runRecs (ssacStep wok pageOf now) fs rest).requests,
            ("Unable to fetch " ++ r.url ++ ".\n") ::
              (runRecs (ssacStep wok pageOf now) fs rest).errors,
            (runRecs (ssacStep wok pageOf now) fs rest).newFetch,
            (runRecs (ssacStep wok pageOf now) fs rest).aborted⟩) ∧
      (∀ (wok : String → Bool) (now : Nat) (fs : FS) (r : RRec) (rest : List RRec),
        fsExists fs (basename r.url) = false → wok r.url = false →
        runRecs (rssacStep wok now) fs (r :: rest) =
          ⟨(runRecs (rssacStep wok now) fs rest).fs,
            Outcome.fetchFailed :: (runRecs (rssacStep wok now) fs rest).outcomes,
            r.url :: (runRecs (rssacStep wok now) fs rest).requests,
            ("Unable to fetch " ++ r.url ++ ".\n") ::
              (runRecs (rssacStep wok now) fs rest).errors,
            (runRecs (rssacStep wok now) fs rest).newFetch,
            (runRecs (rssacStep wok now) fs rest).aborted⟩) ∧
      (∀ (wok : String → Bool) (now : Nat) (fs : FS) (r : ORec) (rest : List ORec),
        fsExists fs (basename r.href) = false → wok (octoUrlOf r.href) = false →
        runRecs (octoStep wok now) fs (r :: rest) =
          ⟨(runRecs (octoStep wok now) fs rest).fs,
            Outcome.fetchFailed :: (runRecs (octoStep wok now) fs rest).outcomes,
            octoUrlOf r.href :: (runRecs (octoStep wok now) fs rest).requests,
            ("Unable to fetch " ++ octoUrlOf r.href ++ ".\n") ::
              (runRecs (octoStep wok now) fs rest).errors,
            (runRecs (octoStep wok now) fs rest).newFetch,
            (runRecs (octoStep wok now) fs rest).aborted⟩) := by
  refine ⟨?_, ?_, ?_⟩
  · intro wok pageOf now fs r rest h1 h2
    exact runRecs_cons_ok (ssacStep wok pageOf now) fs r rest fs Outcome.fetchFailed
      [r.url] ["Unable to fetch " ++ r.url ++ ".\n"] false
      (ssacStep_fail wok pageOf now fs r h1 h2)
  · intro wok now fs r rest h1 h2
    exact runRecs_cons_ok (rssacStep wok now) fs r rest fs Outcome.fetchFailed
      [r.url] ["Unable to fetch " ++ r.url ++ ".\n"] false
      (rssacStep_fail wok now fs r h1 h2)
  · intro wok now fs r rest h1 h2
    exact runRecs_cons_ok (octoStep wok now) fs r rest fs Outcome.fetchFailed
      [octoUrlOf r.href] ["Unable to fetch " ++ octoUrlOf r.href ++ ".\n"] false
      (octoStep_fail wok now fs r h1 h2)

/-- Claim C5 witness: a concrete SSAC run whose first record's fetch fails
while the second record succeeds; the theorem gives the run equation, and
evaluation confirms the error line, both outcomes, and no abort. -/
theorem c5_fetch_failure_logged_and_continues_witness :
    runRecs (ssacStep (fun u => u == "https://x/ok.pdf")
        (fun _ => Html.mk (some "T") none none) 7) []
      [⟨"SAC002", "T2", "https://x/bad.pdf"⟩, ⟨"SAC001", "T1", "https://x/ok.pdf"⟩] =
      ⟨(runRecs (ssacStep (fun u => u == "https://x/ok.pdf")
            (fun _ => Html.mk (some "T") none none) 7) []
          [⟨"SAC001", "T1", "https://x/ok.pdf"⟩]).fs,
        Outcome.fetchFailed :: (runRecs (ssacStep (fun u => u == "https://x/ok.pdf")
            (fun _ => Html.mk (some "T") none none) 7) []
          [⟨"SAC001", "T1", "https://x/ok.pdf"⟩]).outcomes,
        "https://x/bad.pdf" :: (runRecs (ssacStep (fun u => u == "https://x/ok.pdf")
            (fun _ => Html.mk (some "T") none none) 7) []
          [⟨"SAC001", "T1", "https://x/ok.pdf"⟩]).requests,
        ("Unable to fetch " ++ "https://x/bad.pdf" ++ ".\n") ::
          (runRecs (ssacStep (fun u => u == "https://x/ok.pdf")
            (fun _ => Html.mk (some "T") none none) 7) []
          [⟨"SAC001", "T1", "https://x/ok.pdf"⟩]).errors,
        (runRecs (ssacStep (fun u => u == "https://x/ok.pdf")
            (fun _ => Html.mk (some "T") none none) 7) []
          [⟨"SAC001", "T1", "https://x/ok.pdf"⟩]).newFetch,
        (runRecs (ssacStep (fun u => u == "https://x/ok.pdf")
            (fun _ => Html.mk (some "T") none none) 7) []
          [⟨"SAC001", "T1", "https://x/ok.pdf"⟩]).aborted⟩ ∧
      (runRecs (ssacStep (fun u => u == "https://x/ok.pdf")
          (fun _ => Html.mk (some "T") none none) 7) []
        [⟨"SAC002", "T2", "https://x/bad.pdf"⟩, ⟨"SAC001", "T1", "https://x/ok.pdf"⟩]).outcomes =
        [Outcome.fetchFailed, Outcome.fetched] ∧
      (runRecs (ssacStep (fun u => u == "https://x/ok.pdf")
          (fun _ => Html.mk (some "T") none none) 7) []
        [⟨"SAC002", "T2", "https://x/bad.pdf"⟩, ⟨"SAC001", "T1", "https://x/ok.pdf"⟩]).aborted =
        false :=
  ⟨c5_fetch_failure_logged_and_continues.1 (fun u => u == "https://x/ok.pdf")
      (fun _ => Html.mk (some "T") none none) 7 [] ⟨"SAC002", "T2", "https://x/bad.pdf"⟩
      [⟨"SAC001", "T1", "https://x/ok.pdf"⟩] (by decide) (by decide),
    by decide, by decide⟩

/-! ## Index-writing characterizations -/

theorem bool_eq_false_of_not_true {b : Bool} (h : ¬ b = true) : b = false := by
  cases b with
  | true => exact absurd rfl h
  | false => rfl

theorem mirror_ssac_indexWritten_eq (wok : String → Bool) (pageOf : String → Html)
    (today : String) (now : Nat) (fs : FS) (recs : List SRec) :
    (mirror_ssac_documents wok pageOf today now fs recs).indexWritten =
      ((runRecs (ssacStep wok pageOf now) fs
          (sortDescBy (fun r : SRec => r.docname)
            (buildDictBy (fun r : SRec => r.docname) recs))).newFetch &&
        !(runRecs (ssacStep wok pageOf now) fs
          (sortDescBy (fun r : SRec => r.docname)
            (buildDictBy (fun r : SRec => r.docname) recs))).aborted) := by
  simp only [mirror_ssac_documents]
  split
  · rename_i h
    exact h.symm
  · rename_i h
    exact (bool_eq_false_of_not_true h).symm

theorem mirror_rssac_indexWritten_eq (wok : String → Bool)
    (today : String) (now : Nat) (fs : FS) (recs : List RRec) :
    (mirror_rssac_documents wok today now fs recs).indexWritten =
      ((runRecs (rssacStep wok now) fs
          (sortDescBy (fun r : RRec => r.docname)
            (buildDictBy (fun r : RRec => r.docname) recs))).newFetch &&
        !(runRecs (rssacStep wok now) fs
          (sortDescBy (fun r : RRec => r.docname)
            (buildDictBy (fun r : RRec => r.docname) recs))).aborted) := by
  simp only [mirror_rssac_documents]
  split
  · rename_i h
    exact h.symm
  · rename_i h
    exact (bool_eq_false_of_not_true h).symm

theorem mirror_octo_indexWritten_eq (wok : String → Bool)
    (today : String) (now : Nat) (fs : FS) (rows : List ORec) :
    (mirror_octo_documents wok today now fs rows).indexWritten =
      ((runRecs (octoStep wok now) fs rows).newFetch &&
        !(runRecs (octoStep wok now) fs rows).aborted) := by
  simp only [mirror_octo_documents]
  split
  · rename_i h
    exact h.symm
  · rename_i h
    exact (bool_eq_false_of_not_true h).symm

theorem mirror_ssac_index_entries (wok : String → Bool) (pageOf : String → Html)
    (today : String) (now : Nat) (fs : FS) (recs : List SRec) (idx : IndexData SRec)
    (h : (mirror_ssac_documents wok pageOf today now fs recs).index = some idx) :
    idx.entries = sortDescBy (fun r : SRec => r.docname)
      (buildDictBy (fun r : SRec => r.docname) recs) := by
  simp only [mirror_ssac_documents] at h
  split at h
  · cases h
    rfl
  · cases h

theorem mirror_rssac_index_entries (wok : String → Bool)
    (today : String) (now : Nat) (fs : FS) (recs : List RRec) (idx : IndexData RRec)
    (h : (mirror_rssac_documents wok today now fs recs).index = some idx) :
    idx.entries = sortDescBy (fun r : RRec => r.docname)
      (buildDictBy (fun r : RRec => r.docname) recs) := by
  simp only [mirror_rssac_documents] at h
  split at h
  · cases h
    rfl
  · cases h

theorem mirror_octo_index_entries (wok : String → Bool)
    (today : String) (now : Nat) (fs : FS) (rows : List ORec) (idx : IndexData ORec)
    (h : (mirror_octo_documents wok today now fs rows).index = some idx) :
    idx.entries = rows := by
  simp only [mirror_octo_documents] at h
  split at h
  · cases h
    rfl
  · cases h

/-! ## Claim C1: index rewrite trigger and entry order -/

/-- Claim C1 counterexample: the claim fails for the OCTO family — the
rewritten OCTO index lists its two newly fetched entries in page order
`OCTO-001, OCTO-002`, which is not descending `document_id` order; and for
an SSAC run aborted by the sanitizer, a record is newly fetched yet no
index is rewritten, breaking the claimed equivalence. -/
theorem c1_counterexample :
    (mirror_octo_documents (fun _ => true) "d" 0 []
        [⟨"OCTO-001", "T1", "2019", "/f/a1.pdf"⟩,
          ⟨"OCTO-002", "T2", "2019", "/f/a2.pdf"⟩]).index =
      some ⟨octoHeader "d",
        [⟨"OCTO-001", "T1", "2019", "/f/a1.pdf"⟩,
          ⟨"OCTO-002", "T2", "2019", "/f/a2.pdf"⟩]⟩ ∧
      ¬ List.Pairwise (DescBy (fun r : ORec => r.docname))
        [(⟨"OCTO-001", "T1", "2019", "/f/a1.pdf"⟩ : ORec),
          ⟨"OCTO-002", "T2", "2019", "/f/a2.pdf"⟩] ∧
      Outcome.fetched ∈
        (mirror_ssac_documents (fun _ => true) (fun _ => Html.mk none none none) "d" 0 []
          [⟨"SAC100", "T", "https://www.icann.org/x/doc-a-en"⟩]).run.outcomes ∧
      (mirror_ssac_documents (fun _ => true) (fun _ => Html.mk none none none) "d" 0 []
        [⟨"SAC100", "T", "https://www.icann.org/x/doc-a-en"⟩]).indexWritten = false := by
  refine ⟨by decide, ?_, by decide, by decide⟩
  intro hp
  have h1 := (List.pairwise_cons.1 hp).1 ⟨"OCTO-002", "T2", "2019", "/f/a2.pdf"⟩
    (List.mem_cons_self _ _)
  have h2 : strLe "OCTO-002" "OCTO-001" = true := h1
  revert h2
  decide

/-- Claim C1 (amended): for the SSAC family, when the run is not aborted
by the sanitizer, the index is rewritten iff some record was newly fetched,
and a rewritten index's entries are in descending `document_id` (Python
string) order regardless of the extraction order; the RSSAC family
satisfies both unconditionally; the OCTO family has the same rewrite
trigger but writes its index entries in page (extraction) order. -/
theorem c1_index_trigger_and_order :
    (∀ (wok : String → Bool) (pageOf : String → Html) (today : String) (now : Nat)
        (fs : FS) (recs : List SRec),
        ((mirror_ssac_documents wok pageOf today now fs recs).run.aborted = false →
          ((mirror_ssac_documents wok pageOf today now fs recs).indexWritten = true ↔
            Outcome.fetched ∈
              (mirror_ssac_documents wok pageOf today now fs recs).run.outcomes)) ∧
        (∀ idx : IndexData SRec,
          (mirror_ssac_documents wok pageOf today now fs recs).index = some idx →
            List.Pairwise (DescBy (fun r : SRec => r.docname)) idx.entries)) ∧
      (∀ (wok : String → Bool) (today : String) (now : Nat) (fs : FS) (recs : List RRec),
        ((mirror_rssac_documents wok today now fs recs).indexWritten = true ↔
          Outcome.fetched ∈ (mirror_rssac_documents wok today now fs recs).run.outcomes) ∧
        (∀ idx : IndexData RRec,
          (mirror_rssac_documents wok today now fs recs).index = some idx →
            List.Pairwise (DescBy (fun r : RRec => r.docname)) idx.entries)) ∧
      (∀ (wok : String → Bool) (today : String) (now : Nat) (fs : FS) (rows : List ORec),
        ((mirror_octo_documents wok today now fs rows).indexWritten = true ↔
          Outcome.fetched ∈ (mirror_octo_documents wok today now fs rows).run.outcomes) ∧
        (∀ idx : IndexData ORec,
          (mirror_octo_documents wok today now fs rows).index = some idx →
            idx.entries = rows)) := by
  refine ⟨?_, ?_, ?_⟩
  · intro wok pageOf today now fs recs
    constructor
    · intro hab
      rw [mirror_ssac_run] at hab
      rw [mirror_ssac_indexWritten_eq, mirror_ssac_run, hab]
      simp only [Bool.not_false, Bool.and_true]
      exact runRecs_newFetch_iff _ (ssacStep_fetched_iff wok pageOf now) _ fs
    · intro idx h
      rw [mirror_ssac_index_entries wok pageOf today now fs recs idx h]
      exact sorted_sortDescBy _ _
  · intro wok today now fs recs
    have hab : (runRecs (rssacStep wok now) fs
        (sortDescBy (fun r : RRec => r.docname)
          (buildDictBy (fun r : RRec => r.docname) recs))).aborted = false :=
      runRecs_no_abort _ (rssacStep_no_abort wok now) _ fs
    constructor
    · rw [mirror_rssac_indexWritten_eq, mirror_rssac_run, hab]
      simp only [Bool.not_false, Bool.and_true]
      exact runRecs_newFetch_iff _ (rssacStep_fetched_iff wok now) _ fs
    · intro idx h
      rw [mirror_rssac_index_entries wok today now fs recs idx h]
      exact sorted_sortDescBy _ _
  · intro wok today now fs rows
    have hab : (runRecs (octoStep wok now) fs rows).aborted = false :=
      runRecs_no_abort _ (octoStep_no_abort wok now) rows fs
    constructor
    · rw [mirror_octo_indexWritten_eq, mirror_octo_run, hab]
      simp only [Bool.not_false, Bool.and_true]
      exact runRecs_newFetch_iff _ (octoStep_fetched_iff wok now) rows fs
    · intro idx h
      exact mirror_octo_index_entries wok today now fs rows idx h

/-- Claim C1 witness: a concrete non-aborted SSAC run given in ascending
extraction order; the theorem yields the rewrite-trigger equivalence and
the descending order of the written index entries. -/
theorem c1_index_trigger_and_order_witness :
    ((mirror_ssac_documents (fun _ => true) (fun _ => Html.mk (some "T") none none) "d" 0 []
        [⟨"SAC001", "T", "https://x/a.pdf"⟩, ⟨"SAC002", "U", "https://x/b.pdf"⟩]).indexWritten =
          true ↔
      Outcome.fetched ∈
        (mirror_ssac_documents (fun _ => true) (fun _ => Html.mk (some "T") none none) "d" 0 []
          [⟨"SAC001", "T", "https://x/a.pdf"⟩, ⟨"SAC002", "U", "https://x/b.pdf"⟩]).run.outcomes) ∧
      List.Pairwise (DescBy (fun r : SRec => r.docname))
        (IndexData.mk (ssacHeader "d")
          [(⟨"SAC002", "U", "https://x/b.pdf"⟩ : SRec),
            ⟨"SAC001", "T", "https://x/a.pdf"⟩]).entries :=
  ⟨((c1_index_trigger_and_order.1 (fun _ => true) (fun _ => Html.mk (some "T") none none)
      "d" 0 [] [⟨"SAC001", "T", "https://x/a.pdf"⟩, ⟨"SAC002", "U", "https://x/b.pdf"⟩]).1
      (by decide)),
    ((c1_index_trigger_and_order.1 (fun _ => true) (fun _ => Html.mk (some "T") none none)
      "d" 0 [] [⟨"SAC001", "T", "https://x/a.pdf"⟩, ⟨"SAC002", "U", "https://x/b.pdf"⟩]).2
      ⟨ssacHeader "d",
        [⟨"SAC002", "U", "https://x/b.pdf"⟩, ⟨"SAC001", "T", "https://x/a.pdf"⟩]⟩
      (by decide))⟩

/-! ## Alias-resolution shape lemmas -/

theorem countP_name_eq_zero (fs : FS) (n : String) (h : fsExists fs n = false) :
    fs.countP (fun e => e.name == n) = 0 := by
  refine List.countP_eq_zero.2 ?_
  intro e he hc
  have hx : fsExists fs n = true := by
    simp only [fsExists, List.any_eq_true]
    exact ⟨e, he, hc⟩
  rw [h] at hx
  cases hx

theorem ssacStep_fetch_alias (wok : String → Bool) (pageOf : String → Html) (now : Nat)
    (fs : FS) (r : SRec)
    (h1 : fsExists fs (ssacFilenameOf r.url) = false)
    (h2 : wok r.url = true)
    (h3 : strStarts (ssacFilenameOf r.url) "sac-" = false)
    (h4 : strEnds (ssacFilenameOf r.url) ".htm" = true → clean_html (pageOf r.url) ≠ none)
    (h5 : fsExists fs (ssacLinkName r.docname (ssacFilenameOf r.url)) = false) :
    (ssacStep wok pageOf now fs r).fs =
      (fs ++ [⟨ssacFilenameOf r.url, FKind.file, now⟩]) ++
        [⟨ssacLinkName r.docname (ssacFilenameOf r.url),
          FKind.link (ssacFilenameOf r.url), now⟩] := by
  have hne : ssacFilenameOf r.url ≠ ssacLinkName r.docname (ssacFilenameOf r.url) := by
    intro he
    have hs := ssacLinkName_starts r.docname (ssacFilenameOf r.url)
    rw [← he, h3] at hs
    cases hs
  have hadd : fsAddFile fs (ssacFilenameOf r.url) now =
      fs ++ [⟨ssacFilenameOf r.url, FKind.file, now⟩] :=
    fsAddFile_not_exists fs _ now h1
  have hlf : fsExists (fsAddFile fs (ssacFilenameOf r.url) now)
      (ssacLinkName r.docname (ssacFilenameOf r.url)) = false := by
    rw [hadd, fsExists_append, h5, Bool.false_or]
    exact beq_eq_false_iff_ne.2 hne
  simp only [ssacStep, wget_file, h1, h2, Bool.false_eq_true, if_false, if_true, h3, hlf]
  by_cases h6 : strEnds (ssacFilenameOf r.url) ".htm" = true
  · rcases hc : clean_html (pageOf r.url) with _ | co
    · exact absurd hc (h4 h6)
    · simp only [h6, if_true, hc]
      rw [fsAddLink, hadd]
  · have h6f : strEnds (ssacFilenameOf r.url) ".htm" = false := bool_eq_false_of_not_true h6
    simp only [h6f, Bool.false_eq_true, if_false]
    rw [fsAddLink, hadd]

theorem ssacStep_fetch_noalias (wok : String → Bool) (pageOf : String → Html) (now : Nat)
    (fs : FS) (r : SRec)
    (h1 : fsExists fs (ssacFilenameOf r.url) = false)
    (h2 : wok r.url = true)
    (h3 : strStarts (ssacFilenameOf r.url) "sac-" = true)
    (h4 : strEnds (ssacFilenameOf r.url) ".htm" = true → clean_html (pageOf r.url) ≠ none) :
    (ssacStep wok pageOf now fs r).fs = fs ++ [⟨ssacFilenameOf r.url, FKind.file, now⟩] := by
  have hadd : fsAddFile fs (ssacFilenameOf r.url) now =
      fs ++ [⟨ssacFilenameOf r.url, FKind.file, now⟩] :=
    fsAddFile_not_exists fs _ now h1
  simp only [ssacStep, wget_file, h1, h2, Bool.false_eq_true, if_false, if_true, h3]
  by_cases h6 : strEnds (ssacFilenameOf r.url) ".htm" = true
  · rcases hc : clean_html (pageOf r.url) with _ | co
    · exact absurd hc (h4 h6)
    · simp only [h6, if_true, hc]
      exact hadd
  · have h6f : strEnds (ssacFilenameOf r.url) ".htm" = false := bool_eq_false_of_not_true h6
    simp only [h6f, Bool.false_eq_true, if_false]
    exact hadd

theorem rssacStep_fetch_alias (wok : String → Bool) (now : Nat) (fs : FS) (r : RRec)
    (h1 : fsExists fs (basename r.url) = false)
    (h2 : wok r.url = true)
    (h3 : strStarts (basename r.url) "rssac-" = false)
    (h5 : fsExists fs (rssacLinkName r.docname) = false) :
    (rssacStep wok now fs r).fs =
      (fs ++ [⟨basename r.url, FKind.file, now⟩]) ++
        [⟨rssacLinkName r.docname, FKind.link (basename r.url), now⟩] := by
  have hne : basename r.url ≠ rssacLinkName r.docname := by
    intro he
    have hs := rssacLinkName_starts r.docname
    rw [← he, h3] at hs
    cases hs
  have hadd : fsAddFile fs (basename r.url) now =
      fs ++ [⟨basename r.url, FKind.file, now⟩] :=
    fsAddFile_not_exists fs _ now h1
  have hlf : fsExists (fsAddFile fs (basename r.url) now) (rssacLinkName r.docname) = false := by
    rw [hadd, fsExists_append, h5, Bool.false_or]
    exact beq_eq_false_iff_ne.2 hne
  simp only [rssacStep, wget_file, h1, h2, Bool.false_eq_true, if_false, if_true, h3, hlf]
  rw [fsAddLink, hadd]

theorem rssacStep_fetch_noalias (wok : String → Bool) (now : Nat) (fs : FS) (r : RRec)
    (h1 : fsExists fs (basename r.url) = false)
    (h2 : wok r.url = true)
    (h3 : strStarts (basename r.url) "rssac-" = true) :
    (rssacStep wok now fs r).fs = fs ++ [⟨basename r.url, FKind.file, now⟩] := by
  have hadd : fsAddFile fs (basename r.url) now =
      fs ++ [⟨basename r.url, FKind.file, now⟩] :=
    fsAddFile_not_exists fs _ now h1
  simp only [rssacStep, wget_file, h1, h2, Bool.false_eq_true, if_false, if_true, h3]
  exact hadd

theorem octoStep_links (wok : String → Bool) (now : Nat) :
    ∀ (fs : FS) (r : ORec), fsLinks ((octoStep wok now fs r).fs) = fsLinks fs := by
  intro fs r
  by_cases h1 : fsExists fs (basename r.href) = true
  · rw [octoStep_skip wok now fs r h1]
  · have h1f : fsExists fs (basename r.href) = false := bool_eq_false_of_not_true h1
    by_cases h2 : wok (octoUrlOf r.href) = true
    · rw [octoStep_fetch wok now fs r h1f h2]
      dsimp only
      rw [fsAddFile_not_exists fs _ now h1f, fsLinks_append_file]
    · have h2f : wok (octoUrlOf r.href) = false := bool_eq_false_of_not_true h2
      rw [octoStep_fail wok now fs r h1f h2f]

/-! ## Claim C2: alias creation for newly stored files -/

/-- Claim C2 counterexample: the claim fails for the OCTO family, which
creates no symbolic links at all — a newly stored `report1.pdf` (which does
not start with `octo-`) leaves the directory without any link; it also
fails on the advertised extension: an RSSAC `.htm` file gets the alias
`rssac-028-en.pdf` while `rssac-028-en.htm` does not exist, and an SSAC
file whose extension is neither `.pdf` nor `.htm` gets the bare alias
`sac-200` while `sac-200-en.docx` does not exist. -/
theorem c2_counterexample :
    fsExists (mirror_octo_documents (fun _ => true) "d" 0 []
        [⟨"OCTO-001", "T", "2020", "/f/report1.pdf"⟩]).fs "report1.pdf" = true ∧
      strStarts "report1.pdf" "octo-" = false ∧
      fsLinks (mirror_octo_documents (fun _ => true) "d" 0 []
        [⟨"OCTO-001", "T", "2020", "/f/report1.pdf"⟩]).fs = [] ∧
      (⟨"rssac-028-en.pdf", FKind.link "audio28.htm", 0⟩ : FEntry) ∈
        (rssacStep (fun _ => true) 0 [] ⟨"RSSAC028", "T", "https://x/audio28.htm", "2020"⟩).fs ∧
      strEnds "audio28.htm" ".htm" = true ∧
      fsExists (rssacStep (fun _ => true) 0 []
        ⟨"RSSAC028", "T", "https://x/audio28.htm", "2020"⟩).fs "rssac-028-en.htm" = false ∧
      (⟨"sac-200", FKind.link "doc.docx", 0⟩ : FEntry) ∈
        (ssacStep (fun _ => true) (fun _ => Html.mk (some "T") none none) 0 []
          ⟨"SAC200", "T", "https://x/doc.docx"⟩).fs ∧
      fsExists (ssacStep (fun _ => true) (fun _ => Html.mk (some "T") none none) 0 []
        ⟨"SAC200", "T", "https://x/doc.docx"⟩).fs "sac-200-en.docx" = false := by
  decide

/-- Claim C2 (amended): alias resolution runs for newly stored SSAC and
RSSAC files.  SSAC: when the derived filename does not start with `sac-`,
ends in `.pdf` or `.htm` (the only extensions the code completes the
canonical name for), the sanitizer does not abort, and nothing occupies
the canonical name, exactly one entry — a symbolic link to the fetched
file — exists at `sac-<id-suffix>-en.<ext>` afterwards; when the filename
already starts with `sac-`, no link is created.  RSSAC is the same with
prefix `rssac-` except the alias extension is always `.pdf`, whatever the
stored file's extension.  The OCTO family never creates aliases. -/
theorem c2_alias_resolution :
    (∀ (wok : String → Bool) (pageOf : String → Html) (now : Nat) (fs : FS) (r : SRec),
        fsExists fs (ssacFilenameOf r.url) = false →
        wok r.url = true →
        strStarts (ssacFilenameOf r.url) "sac-" = false →
        (strEnds (ssacFilenameOf r.url) ".htm" = true → clean_html (pageOf r.url) ≠ none) →
        fsExists fs (ssacLinkName r.docname (ssacFilenameOf r.url)) = false →
        ((ssacStep wok pageOf now fs r).fs).countP
            (fun e => e.name == ssacLinkName r.docname (ssacFilenameOf r.url)) = 1 ∧
          (⟨ssacLinkName r.docname (ssacFilenameOf r.url),
            FKind.link (ssacFilenameOf r.url), now⟩ : FEntry) ∈
            (ssacStep wok pageOf now fs r).fs) ∧
      (∀ (wok : String → Bool) (pageOf : String → Html) (now : Nat) (fs : FS) (r : SRec),
        fsExists fs (ssacFilenameOf r.url) = false →
        wok r.url = true →
        strStarts (ssacFilenameOf r.url) "sac-" = true →
        (strEnds (ssacFilenameOf r.url) ".htm" = true → clean_html (pageOf r.url) ≠ none) →
        fsLinks ((ssacStep wok pageOf now fs r).fs) = fsLinks fs) ∧
      (∀ (wok : String → Bool) (now : Nat) (fs : FS) (r : RRec),
        fsExists fs (basename r.url) = false →
        wok r.url = true →
        strStarts (basename r.url) "rssac-" = false →
        fsExists fs (rssacLinkName r.docname) = false →
        ((rssacStep wok now fs r).fs).countP
            (fun e => e.name == rssacLinkName r.docname) = 1 ∧
          (⟨rssacLinkName r.docname, FKind.link (basename r.url), now⟩ : FEntry) ∈
            (rssacStep wok now fs r).fs) ∧
      (∀ (wok : String → Bool) (now : Nat) (fs : FS) (r : RRec),
        fsExists fs (basename r.url) = false →
        wok r.url = true →
        strStarts (basename r.url) "rssac-" = true →
        fsLinks ((rssacStep wok now fs r).fs) = fsLinks fs) ∧
      (∀ (wok : String → Bool) (now : Nat) (fs : FS) (r : ORec),
        fsLinks ((octoStep wok now fs r).fs) = fsLinks fs) := by
  refine ⟨?_, ?_, ?_, ?_, octoStep_links⟩
  · intro wok pageOf now fs r h1 h2 h3 h4 h5
    have hfn_ne : ssacFilenameOf r.url ≠ ssacLinkName r.docname (ssacFilenameOf r.url) := by
      intro he
      have hs := ssacLinkName_starts r.docname (ssacFilenameOf r.url)
      rw [← he, h3] at hs
      cases hs
    rw [ssacStep_fetch_alias wok pageOf now fs r h1 h2 h3 h4 h5]
    constructor
    · rw [List.countP_append, List.countP_append, countP_name_eq_zero fs _ h5]
      simp [List.countP_cons, beq_eq_false_iff_ne.2 hfn_ne]
    · simp
  · intro wok pageOf now fs r h1 h2 h3 h4
    rw [ssacStep_fetch_noalias wok pageOf now fs r h1 h2 h3 h4]
    exact fsLinks_append_file fs _ now
  · intro wok now fs r h1 h2 h3 h5
    have hfn_ne : basename r.url ≠ rssacLinkName r.docname := by
      intro he
      have hs := rssacLinkName_starts r.docname
      rw [← he, h3] at hs
      cases hs
    rw [rssacStep_fetch_alias wok now fs r h1 h2 h3 h5]
    constructor
    · rw [List.countP_append, List.countP_append, countP_name_eq_zero fs _ h5]
      simp [List.countP_cons, beq_eq_false_iff_ne.2 hfn_ne]
    · simp
  · intro wok now fs r h1 h2 h3
    rw [rssacStep_fetch_noalias wok now fs r h1 h2 h3]
    exact fsLinks_append_file fs _ now

/-- Claim C2 witness: concrete newly fetched SSAC and RSSAC files whose
names do not carry the family prefix; the theorem yields exactly one
symbolic link at the canonical name, pointing at the fetched file. -/
theorem c2_alias_resolution_witness :
    (((ssacStep (fun _ => true) (fun _ => Html.mk (some "T") none none) 0 []
          ⟨"SAC123", "T", "https://x/y/report123.pdf"⟩).fs).countP
        (fun e => e.name == ssacLinkName "SAC123" (ssacFilenameOf "https://x/y/report123.pdf")) =
          1 ∧
      (⟨ssacLinkName "SAC123" (ssacFilenameOf "https://x/y/report123.pdf"),
        FKind.link (ssacFilenameOf "https://x/y/report123.pdf"), 0⟩ : FEntry) ∈
        (ssacStep (fun _ => true) (fun _ => Html.mk (some "T") none none) 0 []
          ⟨"SAC123", "T", "https://x/y/report123.pdf"⟩).fs) ∧
      (((rssacStep (fun _ => true) 0 []
            ⟨"RSSAC047", "T", "https://x/rssac047.pdf", "2020"⟩).fs).countP
          (fun e => e.name == rssacLinkName "RSSAC047") = 1 ∧
        (⟨rssacLinkName "RSSAC047", FKind.link (basename "https://x/rssac047.pdf"), 0⟩ : FEntry) ∈
          (rssacStep (fun _ => true) 0 []
            ⟨"RSSAC047", "T", "https://x/rssac047.pdf", "2020"⟩).fs) :=
  ⟨c2_alias_resolution.1 (fun _ => true) (fun _ => Html.mk (some "T") none none) 0 []
      ⟨"SAC123", "T", "https://x/y/report123.pdf"⟩
      (by decide) (by decide) (by decide) (by decide) (by decide),
    c2_alias_resolution.2.2.1 (fun _ => true) 0 []
      ⟨"RSSAC047", "T", "https://x/rssac047.pdf", "2020"⟩
      (by decide) (by decide) (by decide) (by decide)⟩

/-! ## Second-run helpers -/

theorem mirror_ssac_fs_mono (wok : String → Bool) (pageOf : String → Html) (today : String)
    (now : Nat) (fs : FS) (recs : List SRec) (n : String)
    (h : fsExists ((runRecs (ssacStep wok pageOf now) fs
        (sortDescBy (fun r : SRec => r.docname)
          (buildDictBy (fun r : SRec => r.docname) recs))).fs) n = true) :
    fsExists ((mirror_ssac_documents wok pageOf today now fs recs).fs) n = true := by
  simp only [mirror_ssac_documents]
  split
  · exact fsExists_addFile_mono _ _ _ _ h
  · exact h

theorem mirror_rssac_fs_mono (wok : String → Bool) (today : String)
    (now : Nat) (fs : FS) (recs : List RRec) (n : String)
    (h : fsExists ((runRecs (rssacStep wok now) fs
        (sortDescBy (fun r : RRec => r.docname)
          (buildDictBy (fun r : RRec => r.docname) recs))).fs) n = true) :
    fsExists ((mirror_rssac_documents wok today now fs recs).fs) n = true := by
  simp only [mirror_rssac_documents]
  split
  · exact fsExists_addFile_mono _ _ _ _ h
  · exact h

theorem mirror_octo_fs_mono (wok : String → Bool) (today : String)
    (now : Nat) (fs : FS) (rows : List ORec) (n : String)
    (h : fsExists ((runRecs (octoStep wok now) fs rows).fs) n = true) :
    fsExists ((mirror_octo_documents wok today now fs rows).fs) n = true := by
  simp only [mirror_octo_documents]
  split
  · exact fsExists_addFile_mono _ _ _ _ h
  · exact h

theorem mirror_ssac_no_newFetch (wok : String → Bool) (pageOf : String → Html)
    (today : String) (now : Nat) (fs : FS) (recs : List SRec)
    (h : (runRecs (ssacStep wok pageOf now) fs
        (sortDescBy (fun r : SRec => r.docname)
          (buildDictBy (fun r : SRec => r.docname) recs))).newFetch = false) :
    mirror_ssac_documents wok pageOf today now fs recs =
      ⟨runRecs (ssacStep wok pageOf now) fs
          (sortDescBy (fun r : SRec => r.docname)
            (buildDictBy (fun r : SRec => r.docname) recs)), false, none,
        (runRecs (ssacStep wok pageOf now) fs
          (sortDescBy (fun r : SRec => r.docname)
            (buildDictBy (fun r : SRec => r.docname) recs))).fs⟩ := by
  simp only [mirror_ssac_documents]
  rw [if_neg]
  rw [h]
  simp

theorem mirror_rssac_no_newFetch (wok : String → Bool)
    (today : String) (now : Nat) (fs : FS) (recs : List RRec)
    (h : (runRecs (rssacStep wok now) fs
        (sortDescBy (fun r : RRec => r.docname)
          (buildDictBy (fun r : RRec => r.docname) recs))).newFetch = false) :
    mirror_rssac_documents wok today now fs recs =
      ⟨runRecs (rssacStep wok now) fs
          (sortDescBy (fun r : RRec => r.docname)
            (buildDictBy (fun r : RRec => r.docname) recs)), false, none,
        (runRecs (rssacStep wok now) fs
          (sortDescBy (fun r : RRec => r.docname)
            (buildDictBy (fun r : RRec => r.docname) recs))).fs⟩ := by
  simp only [mirror_rssac_documents]
  rw [if_neg]
  rw [h]
  simp

theorem mirror_octo_no_newFetch (wok : String → Bool)
    (today : String) (now : Nat) (fs : FS) (rows : List ORec)
    (h : (runRecs (octoStep wok now) fs rows).newFetch = false) :
    mirror_octo_documents wok today now fs rows =
      ⟨runRecs (octoStep wok now) fs rows, false, none,
        (runRecs (octoStep wok now) fs rows).fs⟩ := by
  simp only [mirror_octo_documents]
  rw [if_neg]
  rw [h]
  simp

/-! ## Claim C6: re-running the mirror is a no-op -/

/-- Claim C6: running a family's mirror a second time against the directory
produced by a completed first run, with the same extracted listing and
fetch behaviour, fetches no file, writes no index, leaves the directory
(and hence the index file's recorded modification time) unchanged — for
SSAC provided the first run was not aborted by the sanitizer, and
unconditionally for RSSAC and OCTO. -/
theorem c6_second_run_is_noop :
    (∀ (wok : String → Bool) (pageOf : String → Html) (today1 today2 : String)
        (now1 now2 : Nat) (fs : FS) (recs : List SRec),
        (mirror_ssac_documents wok pageOf today1 now1 fs recs).run.aborted = false →
        (mirror_ssac_documents wok pageOf today2 now2
            (mirror_ssac_documents wok pageOf today1 now1 fs recs).fs recs).fs =
          (mirror_ssac_documents wok pageOf today1 now1 fs recs).fs ∧
        (mirror_ssac_documents wok pageOf today2 now2
          (mirror_ssac_documents wok pageOf today1 now1 fs recs).fs recs).indexWritten = false ∧
        Outcome.fetched ∉
          (mirror_ssac_documents wok pageOf today2 now2
            (mirror_ssac_documents wok pageOf today1 now1 fs recs).fs recs).run.outcomes ∧
        fsMtime (mirror_ssac_documents wok pageOf today2 now2
            (mirror_ssac_documents wok pageOf today1 now1 fs recs).fs recs).fs "sac-index.txt" =
          fsMtime (mirror_ssac_documents wok pageOf today1 now1 fs recs).fs "sac-index.txt") ∧
      (∀ (wok : String → Bool) (today1 today2 : String) (now1 now2 : Nat)
        (fs : FS) (recs : List RRec),
        (mirror_rssac_documents wok today2 now2
            (mirror_rssac_documents wok today1 now1 fs recs).fs recs).fs =
          (mirror_rssac_documents wok today1 now1 fs recs).fs ∧
        (mirror_rssac_documents wok today2 now2
          (mirror_rssac_documents wok today1 now1 fs recs).fs recs).indexWritten = false ∧
        Outcome.fetched ∉
          (mirror_rssac_documents wok today2 now2
            (mirror_rssac_documents wok today1 now1 fs recs).fs recs).run.outcomes ∧
        fsMtime (mirror_rssac_documents wok today2 now2
            (mirror_rssac_documents wok today1 now1 fs recs).fs recs).fs "rssac-index.txt" =
          fsMtime (mirror_rssac_documents wok today1 now1 fs recs).fs "rssac-index.txt") ∧
      (∀ (wok : String → Bool) (today1 today2 : String) (now1 now2 : Nat)
        (fs : FS) (rows : List ORec),
        (mirror_octo_documents wok today2 now2
            (mirror_octo_documents wok today1 now1 fs rows).fs rows).fs =
          (mirror_octo_documents wok today1 now1 fs rows).fs ∧
        (mirror_octo_documents wok today2 now2
          (mirror_octo_documents wok today1 now1 fs rows).fs rows).indexWritten = false ∧
        Outcome.fetched ∉
          (mirror_octo_documents wok today2 now2
            (mirror_octo_documents wok today1 now1 fs rows).fs rows).run.outcomes ∧
        fsMtime (mirror_octo_documents wok today2 now2
            (mirror_octo_documents wok today1 now1 fs rows).fs rows).fs "octo-index.txt" =
          fsMtime (mirror_octo_documents wok today1 now1 fs rows).fs "octo-index.txt") := by
  refine ⟨?_, ?_, ?_⟩
  · intro wok pageOf today1 today2 now1 now2 fs recs hab
    rw [mirror_ssac_run] at hab
    have hcov := runRecs_covered (ssacStep wok pageOf now1)
      (fun r : SRec => ssacFilenameOf r.url) (fun r : SRec => wok r.url)
      (ssacStep_mono wok pageOf now1) (ssacStep_cov wok pageOf now1)
      (sortDescBy (fun r : SRec => r.docname) (buildDictBy (fun r : SRec => r.docname) recs))
      fs hab
    have hcov2 : ∀ r ∈ sortDescBy (fun r : SRec => r.docname)
        (buildDictBy (fun r : SRec => r.docname) recs),
        fsExists ((mirror_ssac_documents wok pageOf today1 now1 fs recs).fs)
            (ssacFilenameOf r.url) = true ∨ wok r.url = false := by
      intro r hr
      rcases hcov r hr with h | h
      · left
        exact mirror_ssac_fs_mono wok pageOf today1 now1 fs recs _ h
      · right
        exact h
    have hstab := runRecs_stable (ssacStep wok pageOf now2)
      (fun r : SRec => ssacFilenameOf r.url) (fun r : SRec => wok r.url)
      (ssacStep_stable wok pageOf now2)
      (sortDescBy (fun r : SRec => r.docname) (buildDictBy (fun r : SRec => r.docname) recs))
      ((mirror_ssac_documents wok pageOf today1 now1 fs recs).fs) hcov2
    obtain ⟨hfs2, hnf2, hab2, hout2⟩ := hstab
    have hm2 := mirror_ssac_no_newFetch wok pageOf today2 now2
      ((mirror_ssac_documents wok pageOf today1 now1 fs recs).fs) recs hnf2
    refine ⟨?_, ?_, ?_, ?_⟩
    · rw [hm2]
      exact hfs2
    · rw [hm2]
    · rw [mirror_ssac_run]
      exact hout2
    · rw [hm2]
      dsimp only
      rw [hfs2]
  · intro wok today1 today2 now1 now2 fs recs
    have hab : (runRecs (rssacStep wok now1) fs
        (sortDescBy (fun r : RRec => r.docname)
          (buildDictBy (fun r : RRec => r.docname) recs))).aborted = false :=
      runRecs_no_abort _ (rssacStep_no_abort wok now1) _ fs
    have hcov := runRecs_covered (rssacStep wok now1)
      (fun r : RRec => basename r.url) (fun r : RRec => wok r.url)
      (rssacStep_mono wok now1) (rssacStep_cov wok now1)
      (sortDescBy (fun r : RRec => r.docname) (buildDictBy (fun r : RRec => r.docname) recs))
      fs hab
    have hcov2 : ∀ r ∈ sortDescBy (fun r : RRec => r.docname)
        (buildDictBy (fun r : RRec => r.docname) recs),
        fsExists ((mirror_rssac_documents wok today1 now1 fs recs).fs)
            (basename r.url) = true ∨ wok r.url = false := by
      intro r hr
      rcases hcov r hr with h | h
      · left
        exact mirror_rssac_fs_mono wok today1 now1 fs recs _ h
      · right
        exact h
    have hstab := runRecs_stable (rssacStep wok now2)
      (fun r : RRec => basename r.url) (fun r : RRec => wok r.url)
      (rssacStep_stable wok now2)
      (sortDescBy (fun r : RRec => r.docname) (buildDictBy (fun r : RRec => r.docname) recs))
      ((mirror_rssac_documents wok today1 now1 fs recs).fs) hcov2
    obtain ⟨hfs2, hnf2, hab2, hout2⟩ := hstab
    have hm2 := mirror_rssac_no_newFetch wok today2 now2
      ((mirror_rssac_documents wok today1 now1 fs recs).fs) recs hnf2
    refine ⟨?_, ?_, ?_, ?_⟩
    · rw [hm2]
      exact hfs2
    · rw [hm2]
    · rw [mirror_rssac_run]
      exact hout2
    · rw [hm2]
      dsimp only
      rw [hfs2]
  · intro wok today1 today2 now1 now2 fs rows
    have hab : (runRecs (octoStep wok now1) fs rows).aborted = false :=
      runRecs_no_abort _ (octoStep_no_abort wok now1) rows fs
    have hcov := runRecs_covered (octoStep wok now1)
      (fun r : ORec => basename r.href) (fun r : ORec => wok (octoUrlOf r.href))
      (octoStep_mono wok now1) (octoStep_cov wok now1) rows fs hab
    have hcov2 : ∀ r ∈ rows,
        fsExists ((mirror_octo_documents wok today1 now1 fs rows).fs)
            (basename r.href) = true ∨ wok (octoUrlOf r.href) = false := by
      intro r hr
      rcases hcov r hr with h | h
      · left
        exact mirror_octo_fs_mono wok today1 now1 fs rows _ h
      · right
        exact h
    have hstab := runRecs_stable (octoStep wok now2)
      (fun r : ORec => basename r.href) (fun r : ORec => wok (octoUrlOf r.href))
      (octoStep_stable wok now2) rows
      ((mirror_octo_documents wok today1 now1 fs rows).fs) hcov2
    obtain ⟨hfs2, hnf2, hab2, hout2⟩ := hstab
    have hm2 := mirror_octo_no_newFetch wok today2 now2
      ((mirror_octo_documents wok today1 now1 fs rows).fs) rows hnf2
    refine ⟨?_, ?_, ?_, ?_⟩
    · rw [hm2]
      exact hfs2
    · rw [hm2]
    · rw [mirror_octo_run]
      exact hout2
    · rw [hm2]
      dsimp only
      rw [hfs2]

/-- Claim C6 witness: a concrete SSAC run that fetches one file and writes
the index; the theorem yields that a second run at a later time changes
nothing — the fatal hypothesis (the first run completed) holds by
evaluation. -/
theorem c6_second_run_is_noop_witness :
    (mirror_ssac_documents (fun _ => true) (fun _ => Html.mk (some "T") none none) "d2" 9
        (mirror_ssac_documents (fun _ => true) (fun _ => Html.mk (some "T") none none)
          "d1" 1 [] [⟨"SAC001", "T", "https://x/a.pdf"⟩]).fs
        [⟨"SAC001", "T", "https://x/a.pdf"⟩]).fs =
      (mirror_ssac_documents (fun _ => true) (fun _ => Html.mk (some "T") none none)
        "d1" 1 [] [⟨"SAC001", "T", "https://x/a.pdf"⟩]).fs ∧
    (mirror_ssac_documents (fun _ => true) (fun _ => Html.mk (some "T") none none) "d2" 9
        (mirror_ssac_documents (fun _ => true) (fun _ => Html.mk (some "T") none none)
          "d1" 1 [] [⟨"SAC001", "T", "https://x/a.pdf"⟩]).fs
        [⟨"SAC001", "T", "https://x/a.pdf"⟩]).indexWritten = false ∧
    Outcome.fetched ∉
      (mirror_ssac_documents (fun _ => true) (fun _ => Html.mk (some "T") none none) "d2" 9
        (mirror_ssac_documents (fun _ => true) (fun _ => Html.mk (some "T") none none)
          "d1" 1 [] [⟨"SAC001", "T", "https://x/a.pdf"⟩]).fs
        [⟨"SAC001", "T", "https://x/a.pdf"⟩]).run.outcomes ∧
    fsMtime (mirror_ssac_documents (fun _ => true) (fun _ => Html.mk (some "T") none none) "d2" 9
        (mirror_ssac_documents (fun _ => true) (fun _ => Html.mk (some "T") none none)
          "d1" 1 [] [⟨"SAC001", "T", "https://x/a.pdf"⟩]).fs
        [⟨"SAC001", "T", "https://x/a.pdf"⟩]).fs "sac-index.txt" =
      fsMtime (mirror_ssac_documents (fun _ => true) (fun _ => Html.mk (some "T") none none)
        "d1" 1 [] [⟨"SAC001", "T", "https://x/a.pdf"⟩]).fs "sac-index.txt" :=
  c6_second_run_is_noop.1 (fun _ => true) (fun _ => Html.mk (some "T") none none)
    "d1" "d2" 1 9 [] [⟨"SAC001", "T", "https://x/a.pdf"⟩] (by decide)
